import Mathlib

/-!
# Verification of the plistutils binary decoders

A shallow embedding, in Lean 4, of the three decoders of the `plistutils`
library (`alias.py`, `bookmark.py`, `nskeyedarchiver.py` and the shared
helpers of `utils.py`), together with theorems settling the specification
claims about them.

Modelling conventions:

* A byte buffer is a `List Nat` of values `< 256`; Python slices (which
  clamp) are modelled with `List.drop`/`List.take`, while `struct.unpack`
  and `struct.unpack_from` (which raise `struct.error` when too few bytes
  are available) are modelled with explicit bounds checks returning an
  error value.
* Python exceptions that a decoder can raise to its caller are modelled by
  an `Except` result; exceptions that the source catches locally are
  handled locally and never surface in the result.
* `datetime.datetime` values are modelled by their microsecond count since
  the Unix epoch; `decimal.Decimal` arithmetic of `parse_timestamp` is
  modelled exactly over the integers (Python evaluates the same quantity
  through floats, which agree on all inputs below 2^53; no claim depends
  on larger timestamps).
* IEEE-754 float payloads decoded by the bookmark parser are carried as
  their raw bit pattern (`Val.float`); no claim interprets a float value.
* Logging is not observable and is omitted, except for the duplicate-key
  error report of `BookmarkParser.update_record`, which one claim is
  about; there the logged keys are returned alongside the record.
-/

namespace Plistutils

/-! ## Byte-buffer primitives -/

/-- Python slice `buf[off:off+len]`: clamps at the end of the buffer. -/
def sliceBytes (buf : List Nat) (off len : Nat) : List Nat :=
  (buf.drop off).take len

/-- Python slice `buf[off:]`. -/
def sliceFrom (buf : List Nat) (off : Nat) : List Nat :=
  buf.drop off

/-- Big-endian value of a byte list (`struct` `'>'` formats). -/
def beNat (bs : List Nat) : Nat :=
  bs.foldl (fun acc b => acc * 256 + b) 0

/-- Little-endian value of a byte list (`struct` `'<'` formats). -/
def leNat (bs : List Nat) : Nat :=
  bs.foldr (fun b acc => acc * 256 + b) 0

/-- Read `n` bytes big-endian at `off`; the caller checks bounds. -/
def readBE (buf : List Nat) (off n : Nat) : Nat :=
  beNat (sliceBytes buf off n)

/-- Read `n` bytes little-endian at `off`; the caller checks bounds. -/
def readLE (buf : List Nat) (off n : Nat) : Nat :=
  leNat (sliceBytes buf off n)

/-- Two's-complement reinterpretation of an unsigned `w`-byte value
(`struct` signed formats `b h i q`). -/
def toSigned (w : Nat) (n : Nat) : Int :=
  if n < 2 ^ (8 * w - 1) then (n : Int) else (n : Int) - 2 ^ (8 * w)

/-! ## Text codecs

`bytes.decode('utf-8')`, `bytes.decode('utf-16-be')`, `bytes.decode('ascii')`
and `binascii.hexlify`, with Python's strict error mode: a `none` result
models `UnicodeDecodeError`. -/

def isCont (b : Nat) : Bool := 0x80 ≤ b && b < 0xC0

def utf8DecodeAux : List Nat → Option (List Char)
  | [] => some []
  | b :: rest =>
    if b < 0x80 then (utf8DecodeAux rest).map (Char.ofNat b :: ·)
    else if b < 0xC2 then none   -- stray continuation byte or overlong 2-byte form
    else if b < 0xE0 then
      match rest with
      | c1 :: r =>
        if isCont c1 then
          (utf8DecodeAux r).map (Char.ofNat ((b - 0xC0) * 0x40 + (c1 - 0x80)) :: ·)
        else none
      | _ => none
    else if b < 0xF0 then
      match rest with
      | c1 :: c2 :: r =>
        if isCont c1 && isCont c2 then
          let cp := (b - 0xE0) * 0x1000 + (c1 - 0x80) * 0x40 + (c2 - 0x80)
          if 0x800 ≤ cp && ¬ (0xD800 ≤ cp && cp ≤ 0xDFFF) then
            (utf8DecodeAux r).map (Char.ofNat cp :: ·)
          else none
        else none
      | _ => none
    else if b < 0xF5 then
      match rest with
      | c1 :: c2 :: c3 :: r =>
        if isCont c1 && isCont c2 && isCont c3 then
          let cp := (b - 0xF0) * 0x40000 + (c1 - 0x80) * 0x1000 +
                    (c2 - 0x80) * 0x40 + (c3 - 0x80)
          if 0x10000 ≤ cp && cp ≤ 0x10FFFF then
            (utf8DecodeAux r).map (Char.ofNat cp :: ·)
          else none
        else none
      | _ => none
    else none

def utf8Decode (bs : List Nat) : Option String :=
  (utf8DecodeAux bs).map List.asString

/-- UTF-16-BE: bytes to 16-bit code units; odd length is a decode error. -/
def utf16beUnits : List Nat → Option (List Nat)
  | [] => some []
  | [_] => none
  | a :: b :: rest => (utf16beUnits rest).map ((a * 256 + b) :: ·)

/-- Combine UTF-16 code units, pairing surrogates; unpaired surrogates are
a decode error. -/
def utf16Combine : List Nat → Option (List Char)
  | [] => some []
  | u :: rest =>
    if 0xD800 ≤ u && u ≤ 0xDBFF then
      match rest with
      | v :: rest' =>
        if 0xDC00 ≤ v && v ≤ 0xDFFF then
          (utf16Combine rest').map
            (Char.ofNat (0x10000 + (u - 0xD800) * 0x400 + (v - 0xDC00)) :: ·)
        else none
      | [] => none
    else if 0xDC00 ≤ u && u ≤ 0xDFFF then none
    else (utf16Combine rest).map (Char.ofNat u :: ·)

def utf16beDecode (bs : List Nat) : Option String :=
  (utf16beUnits bs).bind (fun us => (utf16Combine us).map List.asString)

def asciiDecode (bs : List Nat) : Option String :=
  if bs.all (· < 0x80) then some (List.asString (bs.map Char.ofNat)) else none

def hexDigit (n : Nat) : Char :=
  if n < 10 then Char.ofNat (48 + n) else Char.ofNat (87 + n)

/-- `binascii.hexlify(...).decode('ascii')`: lowercase hex text. -/
def hexlify (bs : List Nat) : String :=
  List.asString (bs.foldr (fun b acc => hexDigit (b / 16) :: hexDigit (b % 16) :: acc) [])

/-! ## Values and records

The Python decoders build `dict`s from field names to heterogeneous
values.  `Val` is the corresponding sum type and a `Record` is an ordered
association list with unique keys, matching Python `dict` semantics
(insertion order preserved, assignment to an existing key replaces in
place). -/

inductive Val where
  | null
  | bool (b : Bool)
  | nat (n : Nat)            -- non-negative Python int (unsigned unpack)
  | int (i : Int)            -- Python int from a signed unpack
  | str (s : String)
  | bytes (bs : List Nat)
  | date (usec : Int)        -- datetime.datetime, microseconds since Unix epoch
  | float (width bits : Nat) -- IEEE-754 value kept as raw bits (width in bytes)
  | floatDate (bits : Nat)   -- datetime from IEEE-754 seconds, kept as the input bits
  | list (xs : List Val)

abbrev Record := List (String × Val)

/-- `record[k]` read access / `k in record`. -/
def rget (r : Record) (k : String) : Option Val :=
  match r with
  | [] => none
  | (k', v) :: rest => if k' = k then some v else rget rest k

/-- `record[k] = v`: replace in place when present, else append. -/
def rset (r : Record) (k : String) (v : Val) : Record :=
  match r with
  | [] => [(k, v)]
  | (k', v') :: rest => if k' = k then (k', v) :: rest else (k', v') :: rset rest k v

/-- `record.pop(k, default_absent)`: the record without key `k`. -/
def rdel (r : Record) (k : String) : Record :=
  match r with
  | [] => []
  | (k', v') :: rest => if k' = k then rest else (k', v') :: rdel rest k

def rcontains (r : Record) (k : String) : Bool :=
  (rget r k).isSome

/-- Python truthiness of the values a decoder tests with `if x:`. -/
def pyTruthy : Val → Bool
  | .null => false
  | .bool b => b
  | .nat n => n ≠ 0
  | .int i => i ≠ 0
  | .str s => s ≠ ""
  | .bytes bs => ¬ bs.isEmpty
  | .date _ => true
  | .float _ bits => ¬ (bits = 0)   -- 0.0 is falsy (sign handled by callers: never hit)
  | .floatDate _ => true
  | .list xs => ¬ xs.isEmpty

/-! ## utils.py -/

/-- `(UNIX_EPOCH - HFS_EPOCH).total_seconds()` (1904-01-01 to 1970-01-01). -/
def HFS_EPOCH_FROM_UNIX_SHIFT : Int := 2082844800

/-- `(UNIX_EPOCH - MAC_ABSOLUTE_TIME_EPOCH).total_seconds()` (2001-01-01). -/
def MAC_ABSOLUTE_TIME_EPOCH_FROM_UNIX_SHIFT : Int := -978307200

/-- Banker's rounding of `num / den` (`decimal.ROUND_HALF_EVEN`), `den > 0`. -/
def roundHalfEven (num : Int) (den : Int) : Int :=
  let q := num / den
  let r := num % den
  if 2 * r < den then q
  else if 2 * r > den then q + 1
  else if q % 2 = 0 then q else q + 1

/-- `datetime.utcfromtimestamp` domain (year 1 to year 9999), in seconds. -/
def utcfromtimestampMin : Int := -62135596800
def utcfromtimestampMax : Int := 253402300799

/-- `utils.parse_timestamp(qword, resolution, epoch_shift)`:
microsecond-precision UTC datetime.  A `none` result models the
`OverflowError`/`ValueError` escaping when the value is outside
`datetime`'s range (callers catch it). -/
def parse_timestamp (qword : Int) (resolution : Int) (epoch_shift : Int) :
    Option Val :=
  let shifted := qword - epoch_shift * resolution
  let total_microseconds := roundHalfEven (shifted * 1000000) resolution
  let seconds := total_microseconds / 1000000   -- Int division floors, like `//`
  if utcfromtimestampMin ≤ seconds ∧ seconds ≤ utcfromtimestampMax then
    some (.date total_microseconds)
  else none

/-- `utils.interpret_flags(bitmask, values)`: comma-joined descriptions of
the set flags, or `None` for a zero/missing bitmask. -/
def interpret_flags (bitmask : Option Val) (values : List (Nat × String)) : Val :=
  match bitmask with
  | some (.nat m) =>
    if m ≠ 0 then
      .str (String.intercalate ", "
        ((values.filter (fun p => p.1 &&& m ≠ 0)).map Prod.snd))
    else .null
  | _ => .null   -- None (or missing) bitmask

/-- `utils.parse_mac_absolute_time(seconds)` for integer input; zero and
out-of-range values yield `None`.  (Float input reaches this function only
through code paths no claim exercises; see `Val.float`.) -/
def parse_mac_absolute_time (seconds : Int) (resolution : Int := 1) : Val :=
  if seconds ≠ 0 then
    match parse_timestamp seconds resolution MAC_ABSOLUTE_TIME_EPOCH_FROM_UNIX_SHIFT with
    | some v => v
    | none => .null
  else .null

/-- `utils.guid_str_from_bytes(b, 'be')`: canonical 8-4-4-4-12 hex form of
16 bytes in big-endian (Apple) order. -/
def guid_str_from_bytes_be (bs : List Nat) : String :=
  let hx := fun (l : List Nat) => (hexlify l)
  hx (sliceBytes bs 0 4) ++ "-" ++ hx (sliceBytes bs 4 2) ++ "-" ++
    hx (sliceBytes bs 6 2) ++ "-" ++ hx (sliceBytes bs 8 2) ++ "-" ++
    hx (sliceBytes bs 10 6)

/-! ## alias.py — `AliasParser`

The alias decoder is a generator: `parse` checks the 8-byte header
(`'> 4sHH'`), dispatches on the version to a fixed-layout body
(`ALIASV2`/`ALIASV3`), runs the TLV named-field loop (hard cap of 50
iterations), post-processes the record, yields it, and recursively decodes
an embedded `alias_data` blob.  Exceptions that can escape the generator
(`struct.error` from `decode_field`'s header unpack) are an `Except`
error; `RecursionError` from the embedded-blob recursion is caught in
`parse_version` (modelled by the fuel parameter). -/

namespace AliasParser

inductive AErr where
  | structError
  | recursionError
  deriving DecidableEq, Repr

/-- `chr(0)` stripping of `AliasParser.decode_utf8`. -/
def stripNulls (s : String) : String :=
  List.asString (s.data.filter (· ≠ Char.ofNat 0))

/-- `AliasParser.decode_utf8(buf, offset, length)`: `length` is `none` for
Python `None`; a falsy length (`None` or `0`) reads to the end of the
buffer.  Never raises: undecodable bytes fall back to lowercase hex. -/
def decode_utf8 (buf : List Nat) (offset : Nat) (length : Option Nat) : Val :=
  let raw := match length with
    | some l => if l ≠ 0 then sliceBytes buf offset l else sliceFrom buf offset
    | none => sliceFrom buf offset
  match utf8Decode raw with
  | some s => .str (stripNulls s)
  | none => .str (hexlify raw)

/-- Split a byte list into big-endian `u32` values (the caller guarantees
a length that is a multiple of 4). -/
def u32Chunks : List Nat → List Nat
  | a :: b :: c :: d :: rest => beNat [a, b, c, d] :: u32Chunks rest
  | _ => []

/-- `AliasParser.decode_cnid_path`: `none` models a raised
`struct.error` (slice shorter than the declared length). -/
def decode_cnid_path (buf : List Nat) (offset length : Nat) : Option Val :=
  if length % 4 ≠ 0 then
    some .null    -- warning logged; `path` stays None and is stored as None
  else if length ≠ 0 then
    let raw := sliceBytes buf offset length
    if raw.length = length then
      some (.str (String.intercalate "/" ((u32Chunks raw).map toString)))
    else none     -- struct.unpack with an exact-size format raises
  else some .null

/-- `AliasParser.decode_hfs_unicode_str(buf, offset, _length)`: the
TLV-declared length is ignored; a 16-bit big-endian character count is
read at `offset` and `2 * count` bytes are then decoded as UTF-16-BE (the
slice clamps at the end of the buffer).  `none` models a raised
exception (`struct.error` or `UnicodeDecodeError`). -/
def decode_hfs_unicode_str (buf : List Nat) (offset : Nat) (_length : Nat) :
    Option Val :=
  if offset + 2 ≤ buf.length then
    let char_count := readBE buf offset 2
    match utf16beDecode (sliceBytes buf (offset + 2) (char_count * 2)) with
    | some s => some (.str s)
    | none => none
  else none

/-- `AliasParser.combine_hfs_datetime`: zero seconds and conversion errors
yield `None`. -/
def combine_hfs_datetime (high low fraction : Nat) : Val :=
  let seconds : Nat := ((high <<< 32) + low) * 65535 + fraction
  if seconds ≠ 0 then
    match parse_timestamp seconds 65535 HFS_EPOCH_FROM_UNIX_SHIFT with
    | some v => v
    | none => .null
  else .null

/-- `AliasParser.decode_hfs_epoch_date(buf, offset, length)`: `none`
models `struct.error` from the three exact-size unpacks when fewer than 8
bytes are available. -/
def decode_hfs_epoch_date (buf : List Nat) (offset length : Nat) : Option Val :=
  let timestamp := sliceBytes buf offset length
  if 8 ≤ timestamp.length then
    some (combine_hfs_datetime (readBE timestamp 0 2) (readBE timestamp 2 4)
            (readBE timestamp 6 2))
  else none

/-- One TLV decoder: may "raise" (`none`), in which case `decode_field`
catches and the field is absent. -/
abbrev Decoder := List Nat → Nat → Nat → Option Val

/-- `AliasParser.named_fields()`: `none` models an id absent from the
table (`dict.get` default `(None, None)`); `some (name, none)` is a known
field with decoder `None` (ignored). -/
def named_fields (field_id : Nat) : Option (String × Option Decoder) :=
  match field_id with
  | 0x0000 => some ("folder_name", some (fun b o l => some (decode_utf8 b o (some l))))
  | 0x0001 => some ("cnid_path", some decode_cnid_path)
  | 0x0002 => some ("hfs_path", some (fun b o l => some (decode_utf8 b o (some l))))
  | 0x0003 => some ("appleshare_zone", none)
  | 0x0004 => some ("appleshare_server_name", none)
  | 0x0005 => some ("appleshare_username", none)
  | 0x0006 => some ("driver_name", some (fun b o l => some (decode_utf8 b o (some l))))
  | 0x0009 => some ("network_mount_info", none)
  | 0x000A => some ("dialup_info", none)
  | 0x000E => some ("target_filename", some decode_hfs_unicode_str)
  | 0x000F => some ("volume_name", some decode_hfs_unicode_str)
  | 0x0010 => some ("volume_creation_date", some decode_hfs_epoch_date)
  | 0x0011 => some ("creation_date", some decode_hfs_epoch_date)
  | 0x0012 => some ("path", some (fun b o l => some (decode_utf8 b o (some l))))
  | 0x0013 => some ("volume_mount_point", some (fun b o l => some (decode_utf8 b o (some l))))
  | 0x0014 => some ("alias_data", some (fun b o l => some (.bytes (sliceBytes b o l))))
  | 0x0015 => some ("user_home_prefix_length", none)
  | _ => none

/-- `AliasParser.decode_field`: reads the 2-byte id and 2-byte length, and
unless the id is the `0xFFFF` sentinel (or the length zero) decodes the
field and advances past the (pad-aligned) payload.  The initial
`struct.unpack_from('>HH')` is outside any `try` and its `struct.error`
escapes; decoder exceptions are caught and the field is skipped. -/
def decode_field (buf : List Nat) (offset : Nat) (record : Record) :
    Except AErr (Record × Nat) :=
  if offset + 4 ≤ buf.length then
    let field_id := readBE buf offset 2
    let length := readBE buf (offset + 2) 2
    let cur_offset := offset + 4
    if field_id ≠ 0xFFFF ∧ length > 0 then
      let record' :=
        match named_fields field_id with
        | some (field_name, some decoder) =>
          match decoder buf cur_offset length with
          | some v => rset record field_name v
          | none => record          -- decoder exception caught; debug log
        | some (_, none) => record  -- recognized field, deliberately ignored
        | none => record            -- unknown tag: warning logged
      .ok (record', cur_offset + length + length % 2)
    else
      .ok (record, cur_offset)
  else .error .structError

/-- The TLV `while` loop of `parse_version`:
`while cur_offset < buf_len and loop_ct < 50`, with `iters` the remaining
iteration budget (initially 50). -/
def fieldLoop (buf : List Nat) : (iters cur_offset : Nat) → Record →
    Except AErr Record
  | 0, _, record => .ok record
  | iters + 1, cur_offset, record =>
    if cur_offset < buf.length then
      match decode_field buf cur_offset record with
      | .ok (record', cur') => fieldLoop buf iters cur' record'
      | .error e => .error e
    else .ok record

inductive AliasVersion where
  | v2
  | v3
  deriving DecidableEq, Repr

/-- `NamedStruct.size` for `ALIASV2` / `ALIASV3`. -/
def structSize : AliasVersion → Nat
  | .v2 => 142
  | .v3 => 50

/-- `version_struct.parse_as_dict(buf, offset)`: `none` models the caught
`struct.error` when fewer than `size` bytes remain (the slice passed to
`unpack` clamps, and `unpack` requires the exact size). -/
def parse_as_dict (ver : AliasVersion) (buf : List Nat) (offset : Nat) :
    Option Record :=
  if offset + structSize ver ≤ buf.length then
    some (match ver with
    | .v2 =>
      [("is_directory", .nat (readBE buf offset 2)),
       ("volume_name", .bytes (sliceBytes buf (offset + 3) 27)),
       ("volume_creation_date", .nat (readBE buf (offset + 30) 4)),
       ("signature", .bytes (sliceBytes buf (offset + 34) 2)),
       ("disk_type", .nat (readBE buf (offset + 36) 2)),
       ("parent_inode", .nat (readBE buf (offset + 38) 4)),
       ("target_filename", .bytes (sliceBytes buf (offset + 43) 63)),
       ("target_inode", .nat (readBE buf (offset + 106) 4)),
       ("creation_date", .nat (readBE buf (offset + 110) 4)),
       ("application", .bytes (sliceBytes buf (offset + 114) 4)),
       ("target_type", .bytes (sliceBytes buf (offset + 118) 4)),
       ("alias_to_root_depth", .nat (readBE buf (offset + 122) 2)),
       ("root_to_target_depth", .nat (readBE buf (offset + 124) 2)),
       ("volume_flags", .nat (readBE buf (offset + 126) 4)),
       ("filesystem_id", .bytes (sliceBytes buf (offset + 130) 2))]
    | .v3 =>
      [("is_directory", .nat (readBE buf offset 2)),
       ("volume_creation_date", .bytes (sliceBytes buf (offset + 2) 8)),
       ("signature_fsid", .bytes (sliceBytes buf (offset + 10) 4)),
       ("parent_inode", .nat (readBE buf (offset + 16) 4)),
       ("target_inode", .nat (readBE buf (offset + 20) 4)),
       ("creation_date", .bytes (sliceBytes buf (offset + 24) 8)),
       ("volume_flags", .nat (readBE buf (offset + 32) 4))])
  else none

/-- `AliasParser.decode_ascii_fields`: `application` and `target_type`
bytes become ASCII text, or lowercase hex on failure. -/
def decodeAsciiField (record : Record) (f : String) : Record :=
  match rget record f with
  | some (.bytes bs) =>
    match asciiDecode bs with
    | some s => rset record f (.str s)
    | none => rset record f (.str (hexlify bs))
  | _ => record

def decode_ascii_fields (record : Record) : Record :=
  decodeAsciiField (decodeAsciiField record "application") "target_type"

/-- `AliasParser.decode_dates`: only values that are raw bytes (the v3
8-byte compound timestamps) are converted; integer values (the v2 `u32`
scalars) and already-decoded datetimes are left untouched.  `pop` +
re-assignment moves the field to the end of the record.  The
`struct.error` of `decode_hfs_epoch_date` is not caught here (it cannot
fire: the struct always supplies 8 bytes). -/
def decodeDateField (record : Record) (f : String) : Except AErr Record :=
  match rget record f with
  | some (.bytes bs) =>
    match decode_hfs_epoch_date bs 0 8 with
    | some v => .ok (rdel record f ++ [(f, v)])
    | none => .error .structError
  | _ => .ok record

def decode_dates (record : Record) : Except AErr Record := do
  decodeDateField (← decodeDateField record "creation_date") "volume_creation_date"

/-- `AliasParser.filter_cnids`: `0xFFFFFFFF` becomes `None`. -/
def filterCnid (record : Record) (f : String) : Record :=
  match rget record f with
  | some (.nat n) => rset record f (if n = 0xFFFFFFFF then .null else .nat n)
  | some v => rset record f v   -- `record[cnid] = ... else record[cnid]`
  | none => record

def filter_cnids (record : Record) : Record :=
  filterCnid (filterCnid record "parent_inode") "target_inode"

/-- `AliasParser.filter_levels`: `0xFFFF` becomes `None` (assignment only
happens on equality). -/
def filterLevel (record : Record) (f : String) : Record :=
  match rget record f with
  | some (.nat n) => if n = 0xFFFF then rset record f .null else record
  | _ => record

def filter_levels (record : Record) : Record :=
  filterLevel (filterLevel record "alias_to_root_depth") "root_to_target_depth"

/-- `mount.endswith('/')`: the last character is `'/'`. -/
def endsWithSlash (s : String) : Bool :=
  s.data.getLast? = some (Char.ofNat 0x2F)

/-- `AliasParser.join_path_mount`: when `volume_mount_point` is truthy, a
`'/'` is appended to it only when it does not already end with `'/'` and
the path is non-empty; the concatenation replaces `path`. -/
def join_path_mount (record : Record) : Record :=
  match rget record "volume_mount_point" with
  | some (.str mount) =>
    if mount ≠ "" then
      let path := match rget record "path" with
        | some (.str p) => p   -- `record.get('path') or ''`
        | _ => ""
      let mount' := if ¬ endsWithSlash mount ∧ path ≠ "" then mount ++ "/" else mount
      rset record "path" (.str (mount' ++ path))
    else record
  | _ => record   -- absent or None: falsy

def SIGNATURE_FSID : List (List Nat × String) :=
  [([0x42, 0x44, 0x63, 0x75], "UDF (CD/DVD)"),
   ([0x42, 0x44, 0x49, 0x53], "FAT32"),
   ([0x42, 0x44, 0x78, 0x46], "exFAT"),
   ([0x48, 0x58, 0x00, 0x00], "HFSX"),
   ([0x48, 0x2B, 0x00, 0x00], "HFS+"),
   ([0x4B, 0x47, 0x00, 0x00], "FTP"),
   ([0x4E, 0x54, 0x63, 0x75], "NTFS")]

def DISK_TYPES : List (Nat × String) :=
  [(0, "Fixed"), (1, "Network"), (2, "400KB Floppy"), (3, "800KB Floppy"),
   (4, "1.44MB Floppy"), (5, "Ejectable")]

def ALIAS_FLAGS : List (Nat × String) :=
  [(0x0002, "IsEjectable"), (0x0020, "IsBootVolume"),
   (0x0080, "IsAutomounted"), (0x0100, "HasPersistentFileIds")]

/-- `record['is_directory'] = bool(record['is_directory'])` (the field is
always a u16 from the fixed body). -/
def stepIsDirectory (record : Record) : Record :=
  match rget record "is_directory" with
  | some (.nat n) => rset record "is_directory" (.bool (n ≠ 0))
  | _ => record

/-- `if record.get('signature_fsid') is None: record['signature_fsid'] =
record.pop('signature') + record.pop('filesystem_id')` (the v2 case). -/
def stepSignatureMerge (record : Record) : Record :=
  match rget record "signature_fsid" with
  | none | some .null =>
    let sig := match rget record "signature" with | some (.bytes b) => b | _ => []
    let fsid := match rget record "filesystem_id" with | some (.bytes b) => b | _ => []
    rset (rdel (rdel record "signature") "filesystem_id") "signature_fsid"
      (.bytes (sig ++ fsid))
  | _ => record

/-- `record['filesystem_description'] =
SIGNATURE_FSID.get(record['signature_fsid'], 'Unknown')`. -/
def stepFsDescription (record : Record) : Record :=
  let sigBytes := match rget record "signature_fsid" with
    | some (.bytes b) => b | _ => []
  rset record "filesystem_description"
    (.str (((SIGNATURE_FSID.find? (fun p => p.1 = sigBytes)).map Prod.snd).getD
      "Unknown"))

/-- `if 'disk_type' in record: record['disk_type_description'] = ...`. -/
def stepDiskType (record : Record) : Record :=
  match rget record "disk_type" with
  | some (.nat dt) => rset record "disk_type_description"
      (.str (((DISK_TYPES.find? (fun p => p.1 = dt)).map Prod.snd).getD "Unknown"))
  | some _ => rset record "disk_type_description" (.str "Unknown")
  | none => record

/-- `record['signature_fsid'] = decode_utf8(record['signature_fsid'], 0,
None)`. -/
def stepSignatureDecode (record : Record) : Record :=
  let sigBytes := match rget record "signature_fsid" with
    | some (.bytes b) => b | _ => []
  rset record "signature_fsid" (decode_utf8 sigBytes 0 none)

/-- `record['volume_flags'] =
interpret_flags(record.pop('volume_flags', None), ALIAS_FLAGS)` — the pop
plus re-assignment moves the field to the end. -/
def stepVolumeFlags (record : Record) : Record :=
  rdel record "volume_flags" ++
    [("volume_flags", interpret_flags (rget record "volume_flags") ALIAS_FLAGS)]

/-- `record['bookmark_index'] = idx`. -/
def stepBookmarkIndex (idx : Nat) (record : Record) : Record :=
  rset record "bookmark_index" (.nat idx)

/-- The tail of `parse_version` after the TLV loop: ASCII fields, dates,
sentinel filters, path join, `is_directory` coercion, signature merge and
lookups, flag rendering, `bookmark_index` — in source order. -/
def postProcess (idx : Nat) (record : Record) : Except AErr Record :=
  match decode_dates (decode_ascii_fields record) with
  | .error e => .error e
  | .ok record =>
    .ok (stepBookmarkIndex idx (stepVolumeFlags (stepSignatureDecode
      (stepDiskType (stepFsDescription (stepSignatureMerge (stepIsDirectory
      (join_path_mount (filter_levels (filter_cnids record))))))))))

mutual

/-- `AliasParser.parse`: header checks (version gate; the `app_info` and
`record_length` checks only log), then `parse_version`.  Fuel exhaustion
models `RecursionError` on the embedded `alias_data` recursion. -/
def parse (idx fuel : Nat) (buf : List Nat) : Except AErr (List Record) :=
  match fuel with
  | 0 => .error .recursionError
  | fuel' + 1 =>
    if buf.length < 8 then .ok []
    else
      let version := readBE buf 6 2
      if version = 2 then parse_version idx fuel' buf 8 .v2
      else if version = 3 then parse_version idx fuel' buf 8 .v3
      else .ok []   -- unsupported version: error logged, no records
termination_by 2 * fuel

/-- `AliasParser.parse_version` minus the version dispatch of `parse`:
parse the fixed body (a failure yields no records), run the TLV loop, run
the post-processing, pop `alias_data`, yield the record, then recursively
parse a truthy `alias_data` blob — catching `RecursionError` (here: fuel
exhaustion) so that already-yielded records stand. -/
def parse_version (idx fuel : Nat) (buf : List Nat) (offset : Nat)
    (ver : AliasVersion) : Except AErr (List Record) :=
  match parse_as_dict ver buf offset with
  | none => .ok []
  | some record =>
    match fieldLoop buf 50 (offset + structSize ver) record with
    | .error e => .error e
    | .ok record =>
      match postProcess idx record with
      | .error e => .error e
      | .ok record =>
        let alias_data := rget record "alias_data"
        let record := rdel record "alias_data"
        let nested : Except AErr (List Record) :=
          match alias_data with
          | some (.bytes bs) =>
            if ¬ bs.isEmpty then
              match parse idx fuel bs with
              | .ok rs => .ok rs
              | .error .recursionError => .ok []   -- `except RecursionError`
              | .error e => .error e
            else .ok []
          | _ => .ok []
        match nested with
        | .ok rs => .ok (record :: rs)
        | .error e => .error e
termination_by 2 * fuel + 1

end

end AliasParser

/-! ## bookmark.py — `BookmarkParser`

`parse_bookmark` walks a linked list of table-of-contents blocks
(`get_toc` / `parse_toc`), dereferences each TOC entry into the typed
value pool (`parse_record_data`) and assembles one record per TOC
(`process_field` / `decode_value` / `update_record`).  bookmark.py
contains no `try`/`except`: every exception raised by `struct.unpack`,
`struct.unpack_from`, `bytes.decode`, `UUID(...)` or unexpected runtime
types escapes `parse_bookmark` to its caller; these are the `BErr`
results.  The `while toc_offset > 0` loop of `get_toc` has no cycle guard
or iteration cap, so it need not terminate; the loop is modelled with a
fuel parameter whose exhaustion (`.nonTermination`) marks exactly the runs
that Python never finishes. -/

namespace BookmarkParser

inductive BErr where
  | structError     -- struct.error
  | unicodeError    -- UnicodeDecodeError
  | valueError      -- ValueError (UUID of a non-16-byte string)
  | typeError       -- TypeError (iterating / joining an unexpected type)
  | attrError       -- AttributeError (.split on a non-bytes value)
  | recursionError  -- RecursionError (unbounded pointer recursion)
  | nonTermination  -- the get_toc while-loop never finishing
  deriving DecidableEq, Repr

/-- One entry of a TOC block, after `record_offset + data_offset`
relocation.  The `record_type_hex` / `hex_offset` diagnostic duplicates of
the source dict are omitted (they merely re-render the two numbers). -/
structure TocEntry where
  record_type : Nat
  record_offset : Nat
  flags : Nat
  index : Nat
  depth : Nat
  deriving DecidableEq, Repr

/-- The `for i in range(count)` loop of `parse_toc`: the raw
`(record_type, record_offset, flags)` triples, each from a 12-byte
`TOC_DATA_HEADER` unpack that raises when out of range. -/
def parseTocRaw (buf : List Nat) (base count : Nat) :
    Except BErr (List (Nat × Nat × Nat)) :=
  (List.range count).mapM fun i =>
    let off := base + i * 12
    if off + 12 ≤ buf.length then
      .ok (readLE buf off 4, readLE buf (off + 4) 4, readLE buf (off + 8) 4)
    else .error .structError

/-- `BookmarkParser.parse_toc`: a 20-byte `TOC_HEADER`
(`data_length, record_type, flags, depth, next_toc, count`, the first
three unused beyond logging) followed by `count` entries; returns the
entries and `next_toc`. -/
def parse_toc (buf : List Nat) (offset data_offset toc_index : Nat) :
    Except BErr (List TocEntry × Nat) :=
  if offset + 20 ≤ buf.length then
    let depth := readLE buf (offset + 8) 4
    let next_toc := readLE buf (offset + 12) 4
    let count := readLE buf (offset + 16) 4
    match parseTocRaw buf (offset + 20) count with
    | .error e => .error e
    | .ok raws =>
      .ok (raws.map (fun t =>
        { record_type := t.1, record_offset := t.2.1 + data_offset,
          flags := t.2.2, index := toc_index, depth := depth }), next_toc)
  else .error .structError

/-- The `while toc_offset > 0` loop of `get_toc`.  Fuel exhaustion
(`.nonTermination`) marks runs on which the Python loop never exits. -/
def getTocLoop (buf : List Nat) (data_offset : Nat) :
    (fuel toc_offset : Nat) → List TocEntry → Nat →
    Except BErr (List TocEntry × Nat)
  | fuel, toc_offset, acc, toc_count =>
    if toc_offset > 0 then
      match fuel with
      | 0 => .error .nonTermination
      | fuel + 1 =>
        match parse_toc buf (data_offset + toc_offset) data_offset toc_count with
        | .error e => .error e
        | .ok (toc_info, next) =>
          getTocLoop buf data_offset fuel next (acc ++ toc_info) (toc_count + 1)
    else .ok (acc, toc_count)

/-- `BookmarkParser.get_toc`: read the first TOC offset at `data_offset`
and follow `next_toc` links until zero. -/
def get_toc (buf : List Nat) (data_offset fuel : Nat) :
    Except BErr (List TocEntry × Nat) :=
  if data_offset + 4 ≤ buf.length then
    getTocLoop buf data_offset fuel (readLE buf data_offset 4) [] 0
  else .error .structError

/-- `BookmarkParser.update_record`: a key already present is reported via
`logger.error` (second component: the colliding keys, in order) and the
existing value is kept; new keys are assigned. -/
def update_record (record : Record) (field_dict : List (String × Val)) :
    Record × List String :=
  match field_dict with
  | [] => (record, [])
  | (k, v) :: rest =>
    if rcontains record k then
      let r := update_record record rest
      (r.1, k :: r.2)
    else update_record (rset record k v) rest

/-- `BookmarkParser.FIELDS`: `none` for an unknown record type; a `none`
field name for a recognized-but-unparsed field. -/
def FIELDS (rec_type : Nat) : Option (List Nat × Option String) :=
  match rec_type with
  | 0x1004 => some ([0x600], some "path")
  | 0x1005 => some ([0x600], some "inode_path")
  | 0x1010 => some ([0x200], some "resource_props")
  | 0x1020 => some ([0x100, 0x900], some "target_filename")
  | 0x1030 => some ([0x300], some "target_inode")
  | 0x1040 => some ([0x400], some "creation_date")
  | 0x2000 => some ([0x600], some "volume_info_depths")
  | 0x2002 => some ([0x100, 0x900], some "volume_path")
  | 0x2005 => some ([0x100, 0x900], some "volume_url")
  | 0x2010 => some ([0x100], some "volume_name")
  | 0x2011 => some ([0x100, 0x800], some "volume_uuid")
  | 0x2012 => some ([0x300], some "volume_size")
  | 0x2013 => some ([0x400], some "volume_creation_date")
  | 0x2020 => some ([0x200], some "volume_props")
  | 0x2030 => some ([0x500], some "volume_was_boot")
  | 0x2040 => some ([0x300], some "disk_image_depth")
  | 0x2050 => some ([0x100, 0x900], some "volume_mount_point")
  | 0xc001 => some ([0x300], none)
  | 0xc011 => some ([0x100], some "user_name")
  | 0xc012 => some ([0x300], some "user_uid")
  | 0xd001 => some ([0x500], none)
  | 0xd010 => some ([0x300], none)
  | 0xe003 => some ([0x600], none)
  | 0xf017 => some ([0x100], some "display_name")
  | 0xf021 => some ([0x200], none)
  | 0xf030 => some ([0x300], some "bookmark_creation_time")
  | 0xf080 => some ([0x200], some "sandbox_rw_extension")
  | 0xf081 => some ([0x200], some "sandbox_ro_extension")
  | 0xfe00 => some ([0x200], none)
  | 0x800001ac => some ([0x300], none)
  | 0x800001d8 => some ([0x300], none)
  | _ => none

def RESOURCE_PROPERTY_FLAGS : List (Nat × String) :=
  [(0x00000001, "IsRegularFile"), (0x00000002, "IsDirectory"),
   (0x00000004, "IsSymbolicLink"), (0x00000008, "IsVolume"),
   (0x00000010, "IsPackage"), (0x00000020, "IsSystemImmutable"),
   (0x00000040, "IsUserImmutable"), (0x00000080, "IsHidden"),
   (0x00000100, "HasHiddenExtension"), (0x00000200, "IsApplication"),
   (0x00000400, "IsCompressed"), (0x00000800, "CanSetHiddenExtension"),
   (0x00001000, "IsReadable"), (0x00002000, "IsWriteable"),
   (0x00004000, "IsExecutable"), (0x00008000, "IsAliasFile"),
   (0x00010000, "IsMountTrigger")]

def VOLUME_PROPERTY_FLAGS : List (Nat × String) :=
  [(0x1, "IsLocal"), (0x2, "IsAutomount"), (0x4, "DontBrowse"),
   (0x8, "IsReadOnly"), (0x10, "IsQuarantined"), (0x20, "IsEjectable"),
   (0x40, "IsRemovable"), (0x80, "IsInternal"), (0x100, "IsExternal"),
   (0x200, "IsDiskImage"), (0x400, "IsFileVault"),
   (0x800, "IsLocaliDiskMirror"), (0x1000, "IsiPod"), (0x2000, "IsiDisk"),
   (0x4000, "IsCD"), (0x8000, "IsDVD"), (0x10000, "IsDeviceFileSystem"),
   (0x100000000, "SupportsPersistentIDs"), (0x200000000, "SupportsSearchFS"),
   (0x400000000, "SupportsExchange"),
   (0x1000000000, "SupportsSymbolicLinks"),
   (0x2000000000, "SupportsDenyModes"), (0x4000000000, "SupportsCopyFile"),
   (0x8000000000, "SupportsReadDirAttr"),
   (0x10000000000, "SupportsJournaling"), (0x20000000000, "SupportsRename"),
   (0x40000000000, "SupportsFastStatFS"),
   (0x80000000000, "SupportsCaseSensitiveNames"),
   (0x100000000000, "SupportsCasePreservedNames"),
   (0x200000000000, "SupportsFLock"),
   (0x400000000000, "HasNoRootDirectoryTimes"),
   (0x800000000000, "SupportsExtendedSecurity"),
   (0x1000000000000, "Supports2TBFileSize"),
   (0x2000000000000, "SupportsHardLinks"),
   (0x4000000000000, "SupportsMandatoryByteRangeLocks"),
   (0x8000000000000, "SupportsPathFromID"), (0x20000000000000, "IsJournaling"),
   (0x40000000000000, "SupportsSparseFiles"),
   (0x80000000000000, "SupportsZeroRuns"),
   (0x100000000000000, "SupportsVolumeSizes"),
   (0x200000000000000, "SupportsRemoteEvents"),
   (0x400000000000000, "SupportsHiddenFiles"),
   (0x800000000000000, "SupportsDecmpFSCompression"),
   (0x1000000000000000, "Has64BitObjectIDs")]

/-- Little-endian `u32` chunks (`struct.unpack('<{n}I', ...)`). -/
def leU32Chunks : List Nat → List Nat
  | a :: b :: c :: d :: rest => leNat [a, b, c, d] :: leU32Chunks rest
  | _ => []

/-- `str(x)` for the values that reach `join_path` / the depth join.
`str()` of floats, datetimes and nested lists is not modelled (no claim
reaches those combinations); bytes use Python's `repr` rendering. -/
def byteReprChars (b : Nat) : List Char :=
  if b = 0x5C then [Char.ofNat 0x5C, Char.ofNat 0x5C]
  else if b = 0x27 then [Char.ofNat 0x5C, Char.ofNat 0x27]
  else if b = 9 then [Char.ofNat 0x5C, Char.ofNat 0x74]
  else if b = 10 then [Char.ofNat 0x5C, Char.ofNat 0x6E]
  else if b = 13 then [Char.ofNat 0x5C, Char.ofNat 0x72]
  else if 0x20 ≤ b ∧ b < 0x7F then [Char.ofNat b]
  else [Char.ofNat 0x5C, Char.ofNat 0x78, hexDigit (b / 16), hexDigit (b % 16)]

def pyStr : Val → String
  | .str s => s
  | .nat n => toString n
  | .int i => toString i
  | .bool b => if b then "True" else "False"
  | .null => "None"
  | .bytes bs =>
    "b" ++ List.asString (Char.ofNat 0x27 ::
      (bs.foldr (fun b acc => byteReprChars b ++ acc) [Char.ofNat 0x27]))
  | _ => ""   -- float/datetime/nested renderings: unreached by any claim

/-- `BookmarkParser.join_path`: leading `/`, falsy components dropped. -/
def join_path (xs : List Val) : String :=
  "/" ++ String.intercalate "/" ((xs.filter pyTruthy).map pyStr)

/-- `bytes.split(b';')`. -/
def splitBytes (sep : Nat) : List Nat → List (List Nat)
  | [] => [[]]
  | b :: rest =>
    match splitBytes sep rest with
    | cur :: parts => if b = sep then [] :: cur :: parts else (b :: cur) :: parts
    | [] => [[b]]   -- unreachable: the result is always non-empty

/-- `bytes.rstrip(b'\x00')`. -/
def rstripNulls (bs : List Nat) : List Nat :=
  (bs.reverse.dropWhile (· = 0)).reverse

/-- `BookmarkParser._decode_sandbox_value`: split on `;`, first part is
the UUID, last part (NUL-stripped) the path; `.split` on a non-bytes
value raises `AttributeError`, UTF-8 failures raise. -/
def _decode_sandbox_value (parsed : Val) : Except BErr (List (String × Val)) :=
  match parsed with
  | .bytes bs =>
    let parts := splitBytes 0x3B bs
    match utf8Decode (parts.headD []) with
    | none => .error .unicodeError
    | some u =>
      match utf8Decode (rstripNulls (parts.getLastD [])) with
      | none => .error .unicodeError
      | some p => .ok [("sandbox_uuid", .str u), ("sandbox_path", .str p)]
  | _ => .error .attrError

/-- `struct.unpack` of a single standard-size integer: the data must have
exactly the format's size. -/
def unpackIntExact (signed : Bool) (w : Nat) (data : List Nat) :
    Except BErr Val :=
  if data.length = w then
    .ok (if signed then .int (toSigned w (leNat data)) else .nat (leNat data))
  else .error .structError

/-- Model of `urllib.parse.urljoin` (Python standard library, external to
this repository), simplified to the cases a two-part CFURL produces: an
absolute or scheme-carrying second part replaces the first, otherwise the
parts are joined with a single `/`.  No claim depends on its value. -/
def urljoinModel (base rel : String) : String :=
  if rel = "" then base
  else if base = "" then rel
  else if (rel.splitOn "://").length > 1 then rel
  else if rel.startsWith "/" then base ++ rel
  else if base.endsWith "/" then base ++ rel
  else base ++ "/" ++ rel

mutual

/-- `BookmarkParser.parse_record_data`: dispatch on the full data type
word.  Unlisted types fall through to the identity (raw bytes).  Fuel
models Python's recursion limit for the pointer-array types. -/
def parse_record_data (fuel : Nat) (buf : List Nat) (data_offset : Nat)
    (record_length data_type : Nat) (data : List Nat) : Except BErr Val :=
  match fuel with
  | 0 => .error .recursionError
  | fuel + 1 =>
    match data_type with
    | 0x101 =>
      match utf8Decode data with
      | some s => .ok (.str s) | none => .error .unicodeError
    | 0x201 => .ok (.bytes data)
    | 0x301 => unpackIntExact true 1 data
    | 0x302 => unpackIntExact true 2 data
    | 0x303 => unpackIntExact true 4 data
    | 0x304 => unpackIntExact true 8 data
    | 0x305 =>
      if data.length = 4 then .ok (.float 4 (leNat data)) else .error .structError
    | 0x306 =>
      if data.length = 8 then .ok (.float 8 (leNat data)) else .error .structError
    | 0x307 => unpackIntExact false 1 data
    | 0x308 => unpackIntExact false 2 data
    | 0x309 => unpackIntExact false 4 data
    | 0x30A => unpackIntExact false 4 data
    | 0x30B => unpackIntExact false 8 data
    | 0x30C =>
      if data.length = 4 then .ok (.float 4 (leNat data)) else .error .structError
    | 0x30D =>
      if data.length = 8 then .ok (.float 8 (leNat data)) else .error .structError
    | 0x30E => unpackIntExact false 4 data
    | 0x30F => unpackIntExact false 4 data
    | 0x400 =>
      -- struct.unpack_from('>d', data) then parse_mac_absolute_time: the
      -- IEEE-754 seconds are kept as raw bits (`floatDate`); conversion of
      -- a float to a datetime is outside the integer model.
      if 8 ≤ data.length then .ok (.floatDate (beNat (sliceBytes data 0 8)))
      else .error .structError
    | 0x500 => .ok (.bool false)
    | 0x501 => .ok (.bool true)
    | 0x601 => (_parse_record_data_601 fuel data record_length buf data_offset).map .list
    | 0x801 =>
      if data.length = 16 then .ok (.str (guid_str_from_bytes_be data))
      else .error .valueError
    | 0x901 =>
      match utf8Decode data with
      | some s => .ok (.str s) | none => .error .unicodeError
    | 0x902 => _parse_record_data_902 fuel data record_length buf data_offset
    | 0xA01 => .ok .null   -- warning when record_length ≠ 0; still null
    | _ => .ok (.bytes data)
termination_by fuel

/-- `BookmarkParser._parse_record_data_601`: the payload is an exact array
of `record_length // 4` little-endian pointers relative to `data_offset`;
each is dereferenced through an 8-byte `RECORD_HEADER` and decoded
recursively. -/
def _parse_record_data_601 (fuel : Nat) (data : List Nat)
    (record_length : Nat) (buf : List Nat) (data_offset : Nat) :
    Except BErr (List Val) :=
  match fuel with
  | 0 => .error .recursionError
  | fuel + 1 =>
    let pointer_ct := record_length / 4
    if data.length = 4 * pointer_ct then
      _parseComponents fuel (leU32Chunks data) buf data_offset
    else .error .structError
termination_by fuel

/-- The `for p in pointers` loop of `_parse_record_data_601`. -/
def _parseComponents (fuel : Nat) (pointers : List Nat) (buf : List Nat)
    (data_offset : Nat) : Except BErr (List Val) :=
  match fuel with
  | 0 => .error .recursionError
  | fuel + 1 =>
    match pointers with
    | [] => .ok []
    | p :: rest =>
      let component_offset := p + data_offset
      if component_offset + 8 ≤ buf.length then
        let component_length := readLE buf component_offset 4
        let component_data_type := readLE buf (component_offset + 4) 4
        let component_data := sliceBytes buf (component_offset + 8) component_length
        match parse_record_data fuel buf data_offset component_length
            component_data_type component_data with
        | .error e => .error e
        | .ok v =>
          match _parseComponents fuel rest buf data_offset with
          | .error e => .error e
          | .ok vs => .ok (v :: vs)
      else .error .structError
termination_by fuel

/-- `BookmarkParser._parse_record_data_902`: a CFURL given as a pointer
array; two parts go through `urljoin`, any other count is slash-joined
with a warning.  A non-string part makes the join raise `TypeError`. -/
def _parse_record_data_902 (fuel : Nat) (data : List Nat)
    (record_length : Nat) (buf : List Nat) (data_offset : Nat) :
    Except BErr Val :=
  match fuel with
  | 0 => .error .recursionError
  | fuel + 1 =>
    match _parse_record_data_601 fuel data record_length buf data_offset with
    | .error e => .error e
    | .ok parsed =>
      let strs : Option (List String) := parsed.mapM (fun v =>
        match v with | .str s => some s | _ => none)
      match strs with
      | none => .error .typeError
      | some ss =>
        if ss.length = 2 then
          .ok (.str (urljoinModel (ss.headD "") (ss.getLastD "")))
        else .ok (.str (String.intercalate "/" ss))
termination_by fuel

end

/-- `parse_mac_absolute_time` applied to an already-parsed value
(`0xf030`): integers convert exactly; float seconds keep their bit
pattern (`floatDate`); a non-numeric value makes the arithmetic raise. -/
def parse_mac_absolute_time_val : Val → Except BErr Val
  | .nat n => .ok (parse_mac_absolute_time n)
  | .int i => .ok (parse_mac_absolute_time i)
  | .float _ bits => .ok (if bits = 0 then .null else .floatDate bits)
  | .null => .ok .null
  | .bool b => .ok (parse_mac_absolute_time (if b then 1 else 0))
  | _ => .error .typeError

/-- `BookmarkParser.decode_value`: parse the payload, then apply the
per-field post-decoder. -/
def decode_value (fuel : Nat) (field_name : String) (buf : List Nat)
    (data_offset item_type record_length data_type : Nat) (data : List Nat) :
    Except BErr (List (String × Val)) :=
  match parse_record_data fuel buf data_offset record_length data_type data with
  | .error e => .error e
  | .ok parsed =>
    match item_type with
    | 0x1004 =>
      match parsed with
      | .list xs => .ok [(field_name, .str (join_path xs))]
      | _ => .error .typeError
    | 0x1005 =>
      match parsed with
      | .list xs => .ok [(field_name, .str (join_path xs))]
      | _ => .error .typeError
    | 0x1010 =>
      match parsed with
      | .bytes bs =>
        if 8 ≤ bs.length then
          .ok [(field_name,
            interpret_flags (some (.nat (leNat (sliceBytes bs 0 8))))
              RESOURCE_PROPERTY_FLAGS)]
        else .error .structError
      | _ => .error .typeError
    | 0x2000 =>
      match parsed with
      | .list xs => .ok [(field_name,
          .str (String.intercalate ", " (xs.map pyStr)))]
      | _ => .error .typeError
    | 0x2020 =>
      match parsed with
      | .bytes bs =>
        if 8 ≤ bs.length then
          .ok [(field_name,
            interpret_flags (some (.nat (leNat (sliceBytes bs 0 8))))
              VOLUME_PROPERTY_FLAGS)]
        else .error .structError
      | _ => .error .typeError
    | 0xf030 =>
      match parse_mac_absolute_time_val parsed with
      | .ok v => .ok [(field_name, v)]
      | .error e => .error e
    | 0xf080 => _decode_sandbox_value parsed
    | 0xf081 => _decode_sandbox_value parsed
    | _ => .ok [(field_name, parsed)]

/-- `BookmarkParser.process_field`: unknown record types and
known-but-unparsed fields are skipped with a log; a data-type class
outside the allowed set (NULL always allowed) is skipped with an error
log; otherwise decode and merge (`update_record`), whose duplicate-key
logs are discarded here. -/
def process_field (fuel : Nat) (buf : List Nat) (data_offset : Nat)
    (record : Record) (rec_type record_offset record_length record_data_type : Nat) :
    Except BErr Record :=
  match FIELDS rec_type with
  | none => .ok record   -- unknown record/data type: warning logged
  | some (_, none) => .ok record
  | some (expected_data_types, some field_name) =>
    let general_type := Nat.land record_data_type 0xffffff00
    if general_type ∈ expected_data_types ∨ general_type = 0xA00 then
      let record_data_offset := record_offset + 8
      let data := sliceBytes buf record_data_offset record_length
      match decode_value fuel field_name buf data_offset rec_type
          record_length record_data_type data with
      | .error e => .error e
      | .ok field_dict => .ok (update_record record field_dict).1
    else .ok record   -- unexpected data type: error logged, field skipped

/-- The `for toc_entry in table_of_contents` loop of `parse_bookmark`:
look up the record for the entry's TOC, set `toc_depth` on first contact,
unpack the 8-byte `RECORD_HEADER` at the entry's offset (a raise escapes)
and process the field. -/
def processEntries (fuel : Nat) (buf : List Nat) (data_offset : Nat) :
    List TocEntry → List Record → Except BErr (List Record)
  | [], all_data => .ok all_data
  | e :: rest, all_data =>
    let cur := all_data.getD e.index []
    let cur := if ¬ rcontains cur "toc_depth" then
        rset cur "toc_depth" (.nat e.depth) else cur
    if e.record_offset + 8 ≤ buf.length then
      let record_length := readLE buf e.record_offset 4
      let record_data_type := readLE buf (e.record_offset + 4) 4
      match process_field fuel buf data_offset cur e.record_type
          e.record_offset record_length record_data_type with
      | .error err => .error err
      | .ok cur => processEntries fuel buf data_offset rest (all_data.set e.index cur)
    else .error .structError

/-- `BookmarkParser.parse_bookmark`: header check (`book`/`alis` magic,
else empty), TOC walk, then per-entry record assembly.  Any exception
raised below the header check escapes to the caller (`.error`). -/
def parse_bookmark (fuel idx : Nat) (buf : List Nat) :
    Except BErr (List Record) :=
  if buf.length < 16 then .ok []
  else
    let magic := sliceBytes buf 0 4
    if magic ≠ [0x62, 0x6F, 0x6F, 0x6B] ∧ magic ≠ [0x61, 0x6C, 0x69, 0x73] then
      .ok []
    else
      let data_offset := readLE buf 12 4
      match get_toc buf data_offset fuel with
      | .error e => .error e
      | .ok (table_of_contents, toc_count) =>
        let all_data := List.replicate toc_count [("bookmark_index", Val.nat idx)]
        processEntries fuel buf data_offset table_of_contents all_data

end BookmarkParser

/-! ## nskeyedarchiver.py — `NSKeyedArchiveParser`

The decoder works on a pre-parsed plist object graph.  Cycle detection
uses `id(obj)` — CPython object identity — so the graph is modelled as an
explicit heap of addressed nodes: containers hold the addresses of their
children, `id(obj)` is the address, and the `parents` set of the traversal
is a list of addresses along the current path (`add` before the dispatch
and `remove` after it bracket every call, so the set always equals the
path).

`process_obj` returns either a newly built value or the original heap
object unchanged (`PRes.ref`), exactly as the Python code either
constructs a new object or returns `obj` itself.

`parse_archive` wraps each `$top` entry in `try/except RecursionError`
only: fuel exhaustion models `RecursionError` (caught: the key is
skipped), while the `NSKeyedArchiveException` cycle error and every other
exception propagate out of `parse_archive`. -/

namespace NSKeyedArchiveParser

/-- A Python object of the parsed plist graph.  Dict keys of plists are
strings; values and list elements are heap addresses. -/
inductive PObj where
  | null
  | bool (b : Bool)
  | int (i : Int)
  | float (bits : Nat)
  | str (s : String)
  | data (bs : List Nat)      -- bytes / biplist Data
  | uid (n : Nat)             -- biplist Uid
  | list (elems : List Nat)
  | dict (entries : List (String × Nat))
  deriving DecidableEq, Repr

abbrev Heap := List PObj

/-- `heap[addr]`; dangling addresses (which cannot occur for the graphs
the plist reader produces) read as `None`. -/
def deref (heap : Heap) (addr : Nat) : PObj :=
  heap.getD addr .null

def dictGet (entries : List (String × Nat)) (k : String) : Option Nat :=
  match entries with
  | [] => none
  | (k', a) :: rest => if k' = k then some a else dictGet rest k

/-- Python truthiness of a heap object. -/
def pyTruthyObj : PObj → Bool
  | .null => false
  | .bool b => b
  | .int i => i ≠ 0
  | .float bits => bits ≠ 0   -- 0.0; the plist reader does not produce -0.0
  | .str s => s ≠ ""
  | .data bs => ¬ bs.isEmpty
  | .uid _ => true
  | .list es => ¬ es.isEmpty
  | .dict es => ¬ es.isEmpty

inductive PyErr where
  | cycle       -- NSKeyedArchiveException: infinite loop detected
  | recursion   -- RecursionError
  | index       -- IndexError: objects_list[i] / NS.objects[idx] out of range
  | attr        -- AttributeError
  | key         -- KeyError
  | value       -- ValueError
  | typeErr     -- TypeError
  deriving DecidableEq, Repr

/-- The result of `process_obj`: either a newly constructed value or the
original heap object (`ref`). -/
inductive PRes where
  | ref (addr : Nat)
  | null
  | bool (b : Bool)
  | int (i : Int)
  | str (s : String)
  | bytes (bs : List Nat)
  | date (usec : Int)
  | floatDate (bits : Nat)   -- datetime from float seconds, kept as bits
  | list (xs : List PRes)
  | dict (kvs : List (PRes × PRes))    -- NSDictionary assembly: processed keys
  | sdict (kvs : List (String × PRes)) -- string-keyed mapping results

mutual

/-- Structural model of Python `==` between processed results (used only
for dict-key overwrite in `_process_ns_dictionary`; references compare by
address). -/
def presBeq : PRes → PRes → Bool
  | .ref a, .ref b => a == b
  | .null, .null => true
  | .bool a, .bool b => a == b
  | .int a, .int b => a == b
  | .str a, .str b => a == b
  | .bytes a, .bytes b => a == b
  | .date a, .date b => a == b
  | .floatDate a, .floatDate b => a == b
  | .list a, .list b => presListBeq a b
  | .dict a, .dict b => presPairsBeq a b
  | .sdict a, .sdict b => presSPairsBeq a b
  | _, _ => false

def presListBeq : List PRes → List PRes → Bool
  | [], [] => true
  | a :: as_, b :: bs => presBeq a b && presListBeq as_ bs
  | _, _ => false

def presPairsBeq : List (PRes × PRes) → List (PRes × PRes) → Bool
  | [], [] => true
  | (k, v) :: as_, (k', v') :: bs => presBeq k k' && presBeq v v' && presPairsBeq as_ bs
  | _, _ => false

def presSPairsBeq : List (String × PRes) → List (String × PRes) → Bool
  | [], [] => true
  | (k, v) :: as_, (k', v') :: bs => k == k' && presBeq v v' && presSPairsBeq as_ bs
  | _, _ => false

end

/-- Python dict assignment for the `PRes`-keyed assembled dictionary:
overwrite the first equal key (keeping the original key object), else
append. -/
def dictSetP (kvs : List (PRes × PRes)) (k v : PRes) : List (PRes × PRes) :=
  match kvs with
  | [] => [(k, v)]
  | (k', v') :: rest =>
    if presBeq k' k then (k', v) :: rest else (k', v') :: dictSetP rest k v

/-- Truthiness of a processed result (`if x:`; references defer to the
heap object). -/
def presTruthy (heap : Heap) : PRes → Bool
  | .ref a => pyTruthyObj (deref heap a)
  | .null => false
  | .bool b => b
  | .int i => i ≠ 0
  | .str s => s ≠ ""
  | .bytes bs => ¬ bs.isEmpty
  | .date _ => true
  | .floatDate _ => true
  | .list xs => ¬ xs.isEmpty
  | .dict kvs => ¬ kvs.isEmpty
  | .sdict kvs => ¬ kvs.isEmpty

/-- A processed result as a Python `str`, when it is one (for
`'/'.join`). -/
def presAsStr (heap : Heap) : PRes → Option String
  | .str s => some s
  | .ref a => match deref heap a with | .str s => some s | _ => none
  | _ => none

/-- `objects_list[i]`: index into the `$objects` pool object. -/
def poolIndex (objectsObj : PObj) (i : Nat) : Except PyErr Nat :=
  match objectsObj with
  | .list pool =>
    match pool.get? i with
    | some a => .ok a
    | none => .error .index
  | _ => .error .typeErr   -- subscripting a non-sequence pool

/-- `NSKeyedArchiveParser.is_known_nskeyedarchive`. -/
def is_known_nskeyedarchive (heap : Heap) (entries : List (String × Nat)) : Bool :=
  if ¬ entries.isEmpty then   -- `if plist_data:`
    (match (dictGet entries "$archiver").map (deref heap) with
     | some (.str a) => a = "NRKeyedArchiver" ∨ a = "NSKeyedArchiver"
     | _ => false) &&
    (match (dictGet entries "$version").map (deref heap) with
     | some (.int v) => v = 100000
     | _ => false)
  else false

/-- `.get('$classname')` on the result of processing `d['$class']`.
`none` models `AttributeError` (no `.get` on the result); `some cn?` is
the looked-up value, a class-name string or nothing usable (which then
falls to the default processor). -/
def classnameOf (heap : Heap) : PRes → Option (Option String)
  | .ref a =>
    match deref heap a with
    | .dict cd =>
      some (match (dictGet cd "$classname").map (deref heap) with
        | some (.str cn) => some cn
        | _ => none)
    | _ => none
  | .sdict kvs =>
    some (match kvs.find? (fun p => p.1 = "$classname") with
      | some (_, .str cn) => some cn
      | some (_, .ref a) =>
        match deref heap a with | .str cn => some cn | _ => none
      | _ => none)
  | .dict kvs =>
    some (match kvs.find? (fun p =>
        match presAsStr heap p.1 with
        | some s => s = "$classname"
        | none => false) with
      | some (_, .str cn) => some cn
      | some (_, .ref a) =>
        match deref heap a with | .str cn => some cn | _ => none
      | _ => none)
  | _ => none

/-- `parse_mac_absolute_time(NS.time)` over a heap object: integers (and
bools) convert exactly, floats keep their bits, and every other truthy
value makes the shift arithmetic raise inside `parse_mac_absolute_time`,
whose `except Exception` turns it into `None`. -/
def nsTimeValue : Option PObj → PRes
  | some (.int i) =>
    (match parse_mac_absolute_time i with
     | .date u => .date u
     | _ => .null)
  | some (.bool b) =>
    (match parse_mac_absolute_time (if b then 1 else 0) with
     | .date u => .date u
     | _ => .null)
  | some (.float bits) => if bits = 0 then .null else .floatDate bits
  | _ => .null

mutual

/-- `NSKeyedArchiveParser.parse_archive(plist_data)`: `root` is the
address of the already-parsed mapping.  A falsy (absent or empty)
`$objects` yields the empty mapping at once. -/
def parse_archive (heap : Heap) (fuel : Nat) (root : Nat) :
    Except PyErr (List (String × PRes)) :=
  match fuel with
  | 0 => .error .recursion
  | fuel + 1 =>
    match deref heap root with
    | .dict rootEntries =>
      match dictGet rootEntries "$objects" with
      | some oaddr =>
        if pyTruthyObj (deref heap oaddr) then
          match dictGet rootEntries "$top" with
          | none => .ok []   -- `.get('$top', {})`: nothing to iterate
          | some taddr =>
            match deref heap taddr with
            | .dict tes => processTopEntries heap fuel (deref heap oaddr) tes
            | _ => .error .attr   -- `.items()` on a non-mapping `$top`
        else .ok []
      | none => .ok []
    | _ => .error .attr   -- `.get` on a non-mapping argument
termination_by fuel

/-- The `for name, val in $top.items()` loop: UID values resolve through
the pool and are processed with a fresh `parents` set;
`except RecursionError` skips the key; other errors propagate.  Non-UID
values pass through unchanged. -/
def processTopEntries (heap : Heap) (fuel : Nat) (objectsObj : PObj) :
    List (String × Nat) → Except PyErr (List (String × PRes))
  | [] => .ok []
  | (name, vaddr) :: rest =>
    match fuel with
    | 0 => .error .recursion
    | fuel + 1 =>
      match deref heap vaddr with
      | .uid u =>
        match poolIndex objectsObj u with
        | .error e => .error e
        | .ok taddr =>
          match process_obj heap fuel taddr objectsObj [] with
          | .ok v =>
            (match processTopEntries heap fuel objectsObj rest with
             | .ok tail => .ok ((name, v) :: tail)
             | .error e => .error e)
          | .error .recursion =>
            processTopEntries heap fuel objectsObj rest   -- caught; key skipped
          | .error e => .error e
      | _ =>
        match processTopEntries heap fuel objectsObj rest with
        | .ok tail => .ok ((name, .ref vaddr) :: tail)
        | .error e => .error e
termination_by fuel

/-- `NSKeyedArchiveParser.process_obj`: re-entering an address already on
the traversal path raises the cycle exception; every call brackets the
address into `parents`. -/
def process_obj (heap : Heap) (fuel : Nat) (addr : Nat) (objectsObj : PObj)
    (parents : List Nat) : Except PyErr PRes :=
  match fuel with
  | 0 => .error .recursion
  | fuel + 1 =>
    if addr ∈ parents then .error .cycle
    else
      let parents := addr :: parents
      match deref heap addr with
      | .dict d => convert_dict heap fuel addr d objectsObj parents
      | .list elems =>
        (match processList heap fuel elems objectsObj parents with
         | .ok xs => .ok (.list xs)
         | .error e => .error e)
      | .uid n =>
        (match poolIndex objectsObj n with
         | .ok a => process_obj heap fuel a objectsObj parents
         | .error e => .error e)
      | .bool _ | .data _ | .int _ | .float _ => .ok (.ref addr)
      | .null => .ok (.ref addr)   -- `obj is None`
      | .str s => .ok (if s = "$null" then .null else .ref addr)
termination_by fuel

/-- Elementwise recursion over a Python list
(`[self.process_obj(x, ...) for x in obj]`). -/
def processList (heap : Heap) (fuel : Nat) (elems : List Nat)
    (objectsObj : PObj) (parents : List Nat) : Except PyErr (List PRes) :=
  match fuel with
  | 0 => .error .recursion
  | fuel + 1 =>
    match elems with
    | [] => .ok []
    | e :: rest =>
      match process_obj heap fuel e objectsObj parents with
      | .error err => .error err
      | .ok v =>
        match processList heap fuel rest objectsObj parents with
        | .error err => .error err
        | .ok vs => .ok (v :: vs)
termination_by fuel

/-- `NSKeyedArchiveParser.convert_dict`: a mapping without `$class` is
returned unchanged; otherwise the class name is resolved and dispatched,
and `AttributeError`/`KeyError`/`ValueError` anywhere inside fall back to
returning the raw mapping. -/
def convert_dict (heap : Heap) (fuel : Nat) (addr : Nat)
    (d : List (String × Nat)) (objectsObj : PObj) (parents : List Nat) :
    Except PyErr PRes :=
  match fuel with
  | 0 => .error .recursion
  | fuel + 1 =>
    match dictGet d "$class" with
    | none => .ok (.ref addr)
    | some caddr =>
      let body : Except PyErr PRes :=
        match process_obj heap fuel caddr objectsObj parents with
        | .error e => .error e
        | .ok cres =>
          match classnameOf heap cres with
          | none => .error .attr
          | some cnOpt => dispatchProcessor heap fuel cnOpt addr d objectsObj parents
      match body with
      | .error .attr | .error .key | .error .value => .ok (.ref addr)
      | other => other
termination_by fuel

/-- `get_processors().get(class_name, _process_default)`: the per-class
processors keyed by `$classname`; unknown names warn and return `None`
(`_process_default`). -/
def dispatchProcessor (heap : Heap) (fuel : Nat) (cnOpt : Option String)
    (addr : Nat) (d : List (String × Nat)) (objectsObj : PObj)
    (parents : List Nat) : Except PyErr PRes :=
  match fuel with
  | 0 => .error .recursion
  | fuel + 1 =>
    match cnOpt with
    | none => .ok .null   -- `_process_default` logs and returns None
    | some cn =>
      if cn = "NSArray" ∨ cn = "NSMutableArray" ∨ cn = "NSSet" ∨ cn = "NSMutableSet" then
        _process_ns_sequence heap fuel d objectsObj parents
      else if cn = "NSAttributedString" ∨ cn = "NSMutableAttributedString" then
        _process_ns_attributed_string heap fuel d objectsObj parents
      else if cn = "NSData" ∨ cn = "NSMutableData" then
        _process_ns_data heap fuel d
      else if cn = "NSDate" then
        .ok (nsTimeValue ((dictGet d "NS.time").map (deref heap)))
      else if cn = "NSDictionary" ∨ cn = "NSMutableDictionary" then
        _process_ns_dictionary heap fuel addr d objectsObj parents
      else if cn = "NSString" ∨ cn = "NSMutableString" then
        .ok (match dictGet d "NS.string" with
             | some a => .ref a
             | none => .null)   -- `d.get('NS.string', None)`
      else if cn = "NSNull" then .ok .null
      else if cn = "NSURL" then
        _process_ns_url heap fuel d objectsObj parents
      else if cn = "NSUUID" then
        _process_ns_uuid heap fuel d
      else if cn = "NSValue" then
        _process_ns_value heap fuel d objectsObj parents
      else if cn = "SFLListItem" then
        _process_ns_list_item heap fuel d objectsObj parents
      else .ok .null   -- `_process_default`
termination_by fuel

/-- `_process_ns_dictionary`: zip `NS.keys` with `NS.objects`, recursing
both sides; missing keys return the raw mapping.  Non-sequence values
make the enumeration/indexing raise. -/
def _process_ns_dictionary (heap : Heap) (fuel : Nat) (addr : Nat)
    (d : List (String × Nat)) (objectsObj : PObj) (parents : List Nat) :
    Except PyErr PRes :=
  match fuel with
  | 0 => .error .recursion
  | fuel + 1 =>
    match dictGet d "NS.keys", dictGet d "NS.objects" with
    | some kaddr, some oaddr =>
      (match deref heap kaddr, deref heap oaddr with
       | .list ks, .list os =>
         (match nsDictLoop heap fuel ks os objectsObj parents [] with
          | .ok kvs => .ok (.dict kvs)
          | .error e => .error e)
       | _, _ => .error .typeErr)   -- enumerate/index of a non-sequence
    | _, _ => .ok (.ref addr)

termination_by fuel

/-- The `for idx, k in enumerate(d['NS.keys'])` loop:
`d['NS.objects'][idx]` raises `IndexError` (uncaught) when the value list
is shorter. -/
def nsDictLoop (heap : Heap) (fuel : Nat) (ks os : List Nat)
    (objectsObj : PObj) (parents : List Nat)
    (acc : List (PRes × PRes)) : Except PyErr (List (PRes × PRes)) :=
  match fuel with
  | 0 => .error .recursion
  | fuel + 1 =>
    match ks with
    | [] => .ok acc
    | k :: krest =>
      match os with
      | [] => .error .index
      | o :: orest =>
        match process_obj heap fuel k objectsObj parents with
        | .error e => .error e
        | .ok kres =>
          match process_obj heap fuel o objectsObj parents with
          | .error e => .error e
          | .ok vres =>
            nsDictLoop heap fuel krest orest objectsObj parents
              (dictSetP acc kres vres)
termination_by fuel

/-- `_process_ns_sequence`: map the recursion over `NS.objects`; a
missing or non-sequence member list makes the iteration raise
`TypeError`. -/
def _process_ns_sequence (heap : Heap) (fuel : Nat)
    (d : List (String × Nat)) (objectsObj : PObj) (parents : List Nat) :
    Except PyErr PRes :=
  match fuel with
  | 0 => .error .recursion
  | fuel + 1 =>
    match (dictGet d "NS.objects").map (deref heap) with
    | some (.list es) =>
      (match processList heap fuel es objectsObj parents with
       | .ok xs => .ok (.list xs)
       | .error e => .error e)
    | _ => .error .typeErr
termination_by fuel

/-- `_process_ns_url`: process `NS.base` and `NS.relative` (defaulting to
`''`), keep the truthy parts and join with `/`; a non-string truthy part
makes `str.join` raise `TypeError`. -/
def _process_ns_url (heap : Heap) (fuel : Nat) (d : List (String × Nat))
    (objectsObj : PObj) (parents : List Nat) : Except PyErr PRes :=
  match fuel with
  | 0 => .error .recursion
  | fuel + 1 =>
    let part : String → Except PyErr PRes := fun k =>
      match dictGet d k with
      | some a => process_obj heap fuel a objectsObj parents
      | none => .ok (.str "")   -- `d.get(k, '')` processed: '' stays ''
    match part "NS.base" with
    | .error e => .error e
    | .ok base =>
      match part "NS.relative" with
      | .error e => .error e
      | .ok relative =>
        let parts := [base, relative].filter (presTruthy heap)
        match parts.mapM (presAsStr heap) with
        | some ss => .ok (.str (String.intercalate "/" ss))
        | none => .error .typeErr
termination_by fuel

/-- `_process_ns_uuid`: 16 bytes of `NS.uuidbytes` render as a big-endian
UUID string; other values are returned unchanged (`len` of a non-sized
object raises). -/
def _process_ns_uuid (heap : Heap) (fuel : Nat) (d : List (String × Nat)) :
    Except PyErr PRes :=
  match fuel with
  | 0 => .error .recursion
  | _ + 1 =>
    match dictGet d "NS.uuidbytes" with
    | none => .ok (.str "")   -- default `''`: len 0 ≠ 16, returned
    | some a =>
      match deref heap a with
      | .data bs =>
        if bs.length = 16 then .ok (.str (guid_str_from_bytes_be bs))
        else .ok (.ref a)
      | .str s => if s.length = 16 then .error .typeErr else .ok (.ref a)
      | .list es => if es.length = 16 then .error .typeErr else .ok (.ref a)
      | .dict es => if es.length = 16 then .error .typeErr else .ok (.ref a)
      | _ => .error .typeErr   -- len() of an unsized object

/-- `_process_ns_data`: return the `NS.data` bytes, except that a nested
keyed archive is decoded in place. -/
def _process_ns_data (heap : Heap) (fuel : Nat) (d : List (String × Nat)) :
    Except PyErr PRes :=
  match fuel with
  | 0 => .error .recursion
  | fuel + 1 =>
    match dictGet d "NS.data" with
    | none => .ok .null   -- `d.get('NS.data', None)` returned as-is
    | some a =>
      match deref heap a with
      | .dict entries =>
        if is_known_nskeyedarchive heap entries then
          match parse_archive heap fuel a with
          | .ok kvs => .ok (.sdict kvs)
          | .error e => .error e
        else .ok (.ref a)
      | _ => .ok (.ref a)
termination_by fuel

/-- `_process_ns_value`: only `NS.special == 4` (NSRange) is supported;
everything else logs and returns `None`. -/
def _process_ns_value (heap : Heap) (fuel : Nat) (d : List (String × Nat))
    (objectsObj : PObj) (parents : List Nat) : Except PyErr PRes :=
  match fuel with
  | 0 => .error .recursion
  | fuel + 1 =>
    match (dictGet d "NS.special").map (deref heap) with
    | some st =>
      if pyTruthyObj st then
        if st = .int 4 then _process_ns_range heap fuel d objectsObj parents
        else .ok .null   -- unsupported special type: error logged
      else .ok .null     -- NSConcreteValue: error logged
    | none => .ok .null
termination_by fuel

/-- `_process_ns_range`. -/
def _process_ns_range (heap : Heap) (fuel : Nat) (d : List (String × Nat))
    (objectsObj : PObj) (parents : List Nat) : Except PyErr PRes :=
  match fuel with
  | 0 => .error .recursion
  | fuel + 1 =>
    match processOptKey heap fuel d "NS.rangeval.length" objectsObj parents with
    | .error e => .error e
    | .ok l =>
      match processOptKey heap fuel d "NS.rangeval.location" objectsObj parents with
      | .error e => .error e
      | .ok lo => .ok (.sdict [("length", l), ("location", lo)])
termination_by fuel

/-- `self.process_obj(d.get(key, None), ...)`: a missing key processes
Python `None`, which returns `None`. -/
def processOptKey (heap : Heap) (fuel : Nat) (d : List (String × Nat))
    (k : String) (objectsObj : PObj) (parents : List Nat) :
    Except PyErr PRes :=
  match fuel with
  | 0 => .error .recursion
  | fuel + 1 =>
    match dictGet d k with
    | some a => process_obj heap fuel a objectsObj parents
    | none => .ok .null
termination_by fuel

/-- `_process_ns_attributed_string`: the underlying `NSString`,
attributes dropped. -/
def _process_ns_attributed_string (heap : Heap) (fuel : Nat)
    (d : List (String × Nat)) (objectsObj : PObj) (parents : List Nat) :
    Except PyErr PRes :=
  match fuel with
  | 0 => .error .recursion
  | fuel + 1 => processOptKey heap fuel d "NSString" objectsObj parents
termination_by fuel

/-- `_process_ns_list_item`. -/
def _process_ns_list_item (heap : Heap) (fuel : Nat)
    (d : List (String × Nat)) (objectsObj : PObj) (parents : List Nat) :
    Except PyErr PRes :=
  match fuel with
  | 0 => .error .recursion
  | fuel + 1 =>
    match processOptKey heap fuel d "URL" objectsObj parents with
    | .error e => .error e
    | .ok url =>
      match processOptKey heap fuel d "bookmark" objectsObj parents with
      | .error e => .error e
      | .ok bm =>
        match processOptKey heap fuel d "name" objectsObj parents with
        | .error e => .error e
        | .ok nm =>
          match processOptKey heap fuel d "order" objectsObj parents with
          | .error e => .error e
          | .ok od =>
            match processOptKey heap fuel d "uniqueIdentifier" objectsObj parents with
            | .error e => .error e
            | .ok uu =>
              .ok (.sdict [("url", url), ("bookmark", bm), ("name", nm),
                           ("order", od), ("uuid", uu)])
termination_by fuel

end

end NSKeyedArchiveParser

/-! ## Auxiliary definitions and concrete inputs for the claims -/

/-- The head record of an alias parse result (the record `parse_version`
yields before recursing into embedded alias data). -/
def firstRecord : Except AliasParser.AErr (List Record) → Record
  | .ok (r :: _) => r
  | _ => []

/-- A byte list contains two adjacent `'/'` characters. -/
def hasDoubleSlash : List Char → Bool
  | [] => false
  | [_] => false
  | a :: b :: rest =>
    (a = Char.ofNat 0x2F && b = Char.ofNat 0x2F) || hasDoubleSlash (b :: rest)

/-- The text without its trailing `'/'` characters. -/
def dropTrailingSlashes (l : List Char) : List Char :=
  (l.reverse.dropWhile (· = Char.ofNat 0x2F)).reverse

/-- The `next_toc` chain starting at `t` reaches zero within `fuel`
steps, each step reading the link of the TOC block it points at.  This is
the exact termination condition of the `get_toc` walk. -/
def reachesZero (buf : List Nat) (data_offset : Nat) : Nat → Nat → Bool
  | fuel, t =>
    if t = 0 then true
    else
      match fuel with
      | 0 => false
      | fuel + 1 =>
        match BookmarkParser.parse_toc buf (data_offset + t) data_offset 0 with
        | .ok (_, next) => reachesZero buf data_offset fuel next
        | .error _ => false

/-- `get_toc` exhausts every fuel budget: the Python `while` loop never
exits on this input. -/
def getTocDiverges (buf : List Nat) (data_offset : Nat) : Prop :=
  ∀ fuel, BookmarkParser.get_toc buf data_offset fuel = .error .nonTermination

/-- `parse_bookmark` exhausts every fuel budget on this input. -/
def parseBookmarkDiverges (idx : Nat) (buf : List Nat) : Prop :=
  ∀ fuel, BookmarkParser.parse_bookmark fuel idx buf = .error .nonTermination

/-- Alias v2 blob (160 bytes): 8-byte header (version 2), all-zero
142-byte body, then a TLV list consisting of the `0xFFFF` sentinel entry
followed by a `volume_mount_point` (0x13) field of length 1 with payload
`'/'`.  The `0x13` field lies entirely after the sentinel. -/
def aliasSentinelBlob : List Nat :=
  [0, 0, 0, 0, 0, 160, 0, 2] ++ List.replicate 142 0 ++
  [0xFF, 0xFF, 0, 0, 0, 0x13, 0, 1, 0x2F, 0]

/-- Alias v2 blob (150 bytes, no TLV fields): all-zero body except
`creation_date` (body offset 110, blob offset 118) = `0x41424344`. -/
def aliasRawDateBlob : List Nat :=
  [0, 0, 0, 0, 0, 150, 0, 2] ++ List.replicate 110 0 ++
  [0x41, 0x42, 0x43, 0x44] ++ List.replicate 28 0

/-- Alias v2 blob (150 bytes, no TLV fields) with `parent_inode`
(blob offset 46) = `0xFFFFFFFF`, `target_inode` (114) = 5,
`alias_to_root_depth` (130) = `0xFFFF`, `root_to_target_depth` (132)
= 3. -/
def aliasSentinelFieldsBlob : List Nat :=
  [0, 0, 0, 0, 0, 150, 0, 2] ++ List.replicate 38 0 ++
  [0xFF, 0xFF, 0xFF, 0xFF] ++ List.replicate 64 0 ++
  [0, 0, 0, 5] ++ List.replicate 12 0 ++
  [0xFF, 0xFF, 0, 3] ++ List.replicate 16 0

/-- A TLV entry for named field 0x11 (`creation_date`) of declared length
8, whose payload is the compound HFS timestamp `high 0 / low 1 /
fraction 0` (one second past the HFS epoch). -/
def hfsDateFieldBuf : List Nat :=
  [0x00, 0x11, 0x00, 0x08] ++ [0, 0, 0, 0, 0, 1, 0, 0]

/-- 16-byte bookmark blob: `book` magic with `data_offset = 16`, so the
first TOC-pointer read `struct.unpack_from('<I', buf, 16)` is out of
range. -/
def bmTruncBlob : List Nat :=
  [0x62, 0x6F, 0x6F, 0x6B, 16, 0, 0, 0, 0, 0, 0, 0, 16, 0, 0, 0]

/-- 40-byte bookmark blob whose single TOC block is its own successor:
`data_offset = 16`, first TOC offset 4, and the TOC block at 20 has
`count = 0` and `next_toc = 4` — the `while toc_offset > 0` loop of
`get_toc` revisits offset 4 forever. -/
def bmCycleBlob : List Nat :=
  [0x62, 0x6F, 0x6F, 0x6B, 40, 0, 0, 0, 0, 0, 0, 0, 16, 0, 0, 0] ++
  [4, 0, 0, 0] ++
  [0, 0, 0, 0, 0, 0, 0, 0, 0, 0, 0, 0, 4, 0, 0, 0, 0, 0, 0, 0]

/-- Keyed archive whose `$objects` pool is `[Uid(0)]` and whose `$top`
maps `root` to `Uid(0)`: expanding the UID re-enters the same pool object
and raises the cycle exception. -/
def kaCycleHeap : NSKeyedArchiveParser.Heap :=
  [.dict [("$objects", 1), ("$top", 2)], .list [3], .dict [("root", 3)],
   .uid 0]

/-- Keyed archive `{"$objects": [Uid(1), "x"], "$top": {"root": Uid(0)}}`
— acyclic; with a tiny recursion budget the traversal raises
`RecursionError`, which `parse_archive` catches. -/
def kaDeepHeap : NSKeyedArchiveParser.Heap :=
  [.dict [("$objects", 1), ("$top", 2)], .list [3, 4], .dict [("root", 3)],
   .uid 1, .str "x"]

/-- A mapping with no `$objects` key whose `$top` carries a non-UID
value. -/
def kaNoObjectsHeap : NSKeyedArchiveParser.Heap :=
  [.dict [("$top", 1)], .dict [("name", 2)], .str "x"]

/-- A mapping whose `$objects` is the empty list, with the same `$top`. -/
def kaEmptyObjectsHeap : NSKeyedArchiveParser.Heap :=
  [.dict [("$objects", 3), ("$top", 1)], .dict [("name", 2)], .str "x",
   .list []]

/-! ## Record (Python dict) lemmas -/

theorem rget_rset_self (r : Record) (k : String) (v : Val) :
    rget (rset r k v) k = some v := by
  induction r with
  | nil => simp [rset, rget]
  | cons p rest ih =>
    obtain ⟨k', v'⟩ := p
    by_cases h : k' = k
    · simp [rset, rget, h]
    · simp [rset, rget, h, ih]

theorem rget_rset_ne (r : Record) (k' k : String) (v : Val) (h : k' ≠ k) :
    rget (rset r k' v) k = rget r k := by
  induction r with
  | nil => simp [rset, rget, h]
  | cons p rest ih =>
    obtain ⟨k1, v1⟩ := p
    by_cases h1 : k1 = k'
    · subst h1; simp [rset, rget, h]
    · by_cases h2 : k1 = k
      · subst h2; simp [rset, rget, h1, rget, Ne.symm h]
      · simp [rset, rget, h1, h2, ih]

theorem rget_rdel_ne (r : Record) (f k : String) (h : f ≠ k) :
    rget (rdel r f) k = rget r k := by
  induction r with
  | nil => simp [rdel, rget]
  | cons p rest ih =>
    obtain ⟨k1, v1⟩ := p
    by_cases h1 : k1 = f
    · subst h1; simp [rdel, rget, h]
    · by_cases h2 : k1 = k
      · subst h2; simp [rdel, rget, h1, Ne.symm h]
      · simp [rdel, rget, h1, h2, ih]

theorem rget_append_single_ne (r : Record) (f k : String) (v : Val)
    (h : k ≠ f) : rget (r ++ [(f, v)]) k = rget r k := by
  induction r with
  | nil => simp [rget, Ne.symm h]
  | cons p rest ih =>
    obtain ⟨k1, v1⟩ := p
    by_cases h1 : k1 = k
    · simp [rget, h1]
    · simp [rget, h1, ih]

theorem rget_eq_none_of_not_mem_keys (r : Record) (k : String)
    (h : k ∉ r.map Prod.fst) : rget r k = none := by
  induction r with
  | nil => rfl
  | cons p rest ih =>
    obtain ⟨k1, v1⟩ := p
    have h1 : k1 ≠ k := by
      intro hh; exact h (by simp [hh])
    rw [rget, if_neg h1]
    exact ih (fun hmem => h (List.mem_cons_of_mem _ hmem))

/-! ## Claims about nskeyedarchiver.py -/

namespace NSKeyedArchiveParser

/-- **C9**: when the mapping passed to `parse_archive` has no `$objects`
key, or its `$objects` value is the empty list, `parse_archive` returns
the empty mapping — whatever `$top` contains (including non-UID values
that the processing rules would otherwise pass through). -/
theorem parse_archive_no_objects_empty (heap : Heap) (fuel root : Nat)
    (rootEntries : List (String × Nat))
    (h1 : deref heap root = .dict rootEntries)
    (h2 : dictGet rootEntries "$objects" = none ∨
      ∃ oaddr, dictGet rootEntries "$objects" = some oaddr ∧
        deref heap oaddr = .list []) :
    parse_archive heap (fuel + 1) root = .ok [] := by
  rcases h2 with h2 | ⟨oaddr, h2, h3⟩
  · simp only [parse_archive, h1, h2]
  · simp only [parse_archive, h1, h2, h3, pyTruthyObj]
    simp

/-- Witness for C9: two concrete archives, one lacking `$objects`, one
with an empty pool; both carry a `$top` with a non-UID string value. -/
theorem parse_archive_no_objects_empty_witness :
    parse_archive kaNoObjectsHeap 1 0 = .ok [] ∧
    parse_archive kaEmptyObjectsHeap 1 0 = .ok [] :=
  ⟨parse_archive_no_objects_empty kaNoObjectsHeap 0 0 [("$top", 1)] rfl
     (Or.inl rfl),
   parse_archive_no_objects_empty kaEmptyObjectsHeap 0 0
     [("$objects", 3), ("$top", 1)] rfl (Or.inr ⟨3, rfl, rfl⟩)⟩

/-- **C1, counterexample**: on the archive whose `$objects` pool is
`[Uid(0)]` with `$top = {"root": Uid(0)}`, the cycle error raised inside
the traversal is **not** caught by `parse_archive`: the call returns the
cycle exception to its caller instead of a mapping with `root ↦ null`.
Moreover, on the error the entry point does catch (`RecursionError`,
here fuel exhaustion on an acyclic input), the affected `$top` key is
omitted from the result — it is not present with a null value. -/
theorem parse_archive_cycle_escapes_cex :
    parse_archive kaCycleHeap 100 0 = .error .cycle ∧
    parse_archive kaDeepHeap 2 0 = .ok [] := by
  constructor
  · simp [parse_archive, processTopEntries, process_obj, convert_dict, deref,
          dictGet, poolIndex, pyTruthyObj, kaCycleHeap]
  · simp [parse_archive, processTopEntries, process_obj, convert_dict, deref,
          dictGet, poolIndex, pyTruthyObj, kaDeepHeap]

/-- **C1, amended**: `parse_archive` catches only `RecursionError`
around each `$top` entry.  For an archive with a single UID-valued
`$top` entry: a successful traversal stores the processed value under the
key; a `RecursionError` is caught and the key is omitted (no null value
is stored); any other error — in particular the
`NSKeyedArchiveException` cycle error — propagates to the caller of
`parse_archive`. -/
theorem parse_archive_catches_only_recursion (heap : Heap)
    (fuel root oaddr taddr vaddr u target : Nat)
    (rootEntries : List (String × Nat)) (name : String) (pool : List Nat)
    (h1 : deref heap root = .dict rootEntries)
    (h2 : dictGet rootEntries "$objects" = some oaddr)
    (h3 : deref heap oaddr = .list pool)
    (h4 : pool ≠ [])
    (h5 : dictGet rootEntries "$top" = some taddr)
    (h6 : deref heap taddr = .dict [(name, vaddr)])
    (h7 : deref heap vaddr = .uid u)
    (h8 : pool.get? u = some target) :
    (∀ v, process_obj heap fuel target (.list pool) [] = .ok v →
       parse_archive heap (fuel + 2) root = .ok [(name, v)]) ∧
    (process_obj heap fuel target (.list pool) [] = .error .recursion →
       parse_archive heap (fuel + 2) root = .ok []) ∧
    (∀ e, e ≠ PyErr.recursion →
       process_obj heap fuel target (.list pool) [] = .error e →
       parse_archive heap (fuel + 2) root = .error e) := by
  have hmain : parse_archive heap (fuel + 2) root =
      (match process_obj heap fuel target (.list pool) [] with
       | .ok v => .ok [(name, v)]
       | .error .recursion => .ok []
       | .error e => .error e) := by
    simp only [parse_archive, h1, h2, h3, pyTruthyObj, h5, h6]
    rw [if_pos (by simpa using h4)]
    simp only [processTopEntries, h7, poolIndex, h8]
  refine ⟨fun v hv => ?_, fun hr => ?_, fun e he hpr => ?_⟩
  · rw [hmain, hv]
  · rw [hmain, hr]
  · rw [hmain, hpr]
    cases e <;> simp_all

/-- Witness for C1 (amended): the cycle error of the concrete cyclic
archive propagates out of `parse_archive`. -/
theorem parse_archive_catches_only_recursion_witness :
    process_obj kaCycleHeap 98 3 (.list [3]) [] = .error .cycle ∧
    parse_archive kaCycleHeap 100 0 = .error .cycle := by
  have hc : process_obj kaCycleHeap 98 3 (.list [3]) [] = .error .cycle := by
    simp [process_obj, deref, poolIndex, kaCycleHeap]
  exact ⟨hc,
    (parse_archive_catches_only_recursion kaCycleHeap 98 0 1 2 3 0 3
       [("$objects", 1), ("$top", 2)] "root" [3] rfl rfl rfl (by decide)
       rfl rfl rfl rfl).2.2 .cycle (by decide) hc⟩

end NSKeyedArchiveParser

/-! ## Claims about bookmark.py -/

namespace BookmarkParser

/-- **C2, counterexample**: the 16-byte blob with `book` magic and
`data_offset = 16` makes the very first TOC-pointer read
(`struct.unpack_from('<I', buf, 16)`) out of range; the resulting
`struct.error` is not handled anywhere inside bookmark.py and escapes
`parse_bookmark` to its caller (the `.error` result), contradicting the
claim that malformed content below the blob level never causes an
exception to escape. -/
theorem parse_bookmark_struct_error_escapes_cex :
    parse_bookmark 100 0 bmTruncBlob = .error .structError := rfl

/-- **C2, amended**: offset/length pairs violating
`offset + length ≤ len(blob)` never cause an out-of-bounds read — the
unpack routines bounds-check — but the resulting `struct.error` is not
handled inside the decoder: whenever the blob passes the header check and
its TOC-pointer read is out of range, `parse_bookmark` raises the struct
error to its caller. -/
theorem parse_bookmark_raises_on_truncated_toc (fuel idx : Nat)
    (buf : List Nat)
    (hlen : 16 ≤ buf.length)
    (hmagic : sliceBytes buf 0 4 = [0x62, 0x6F, 0x6F, 0x6B])
    (hoob : buf.length < readLE buf 12 4 + 4) :
    parse_bookmark fuel idx buf = .error .structError := by
  rw [parse_bookmark, if_neg (by omega)]
  simp only [hmagic]
  rw [if_neg (by simp)]
  rw [get_toc, if_neg (by omega)]

/-- Witness for C2 (amended), at the concrete truncated blob. -/
theorem parse_bookmark_raises_on_truncated_toc_witness :
    parse_bookmark 7 3 bmTruncBlob = .error .structError :=
  parse_bookmark_raises_on_truncated_toc 7 3 bmTruncBlob (by decide) rfl
    (by decide)

/-- **C3, counterexample**: on the 40-byte blob whose single TOC block
names itself as its successor (`next_toc` pointing back to the same
offset), the `while toc_offset > 0` walk of `get_toc` revisits the same
TOC forever: it exhausts every fuel budget, and so does `parse_bookmark`
— the walk is not bounded by the input size and visits infinitely many
TOC blocks. -/
theorem bookmark_toc_cycle_diverges_cex :
    getTocDiverges bmCycleBlob 16 ∧ parseBookmarkDiverges 0 bmCycleBlob := by
  have hloop : ∀ fuel acc c,
      getTocLoop bmCycleBlob 16 fuel 4 acc c = .error .nonTermination := by
    intro fuel
    induction fuel with
    | zero => intro acc c; rfl
    | succ f ih =>
      intro acc c
      calc getTocLoop bmCycleBlob 16 (f + 1) 4 acc c
          = getTocLoop bmCycleBlob 16 f 4 (acc ++ []) (c + 1) := rfl
        _ = .error .nonTermination := ih (acc ++ []) (c + 1)
  have hget : ∀ fuel, get_toc bmCycleBlob 16 fuel = .error .nonTermination :=
    fun fuel => hloop fuel [] 0
  refine ⟨hget, fun fuel => ?_⟩
  have hstep : parse_bookmark fuel 0 bmCycleBlob =
      (match get_toc bmCycleBlob 16 fuel with
       | .error e => .error e
       | .ok (tocs, c) =>
         processEntries fuel bmCycleBlob 16 tocs
           (List.replicate c [("bookmark_index", Val.nat 0)])) := rfl
  rw [hstep, hget fuel]

/-- Reindexing a TOC parse: the entry payloads carry the visit index, but
success, the entry shapes and the `next_toc` link do not depend on it. -/
theorem parse_toc_index_shape (buf : List Nat) (off doff i j : Nat) :
    parse_toc buf off doff i = (parse_toc buf off doff j).map
      (fun p => (p.1.map (fun e => { e with index := i }), p.2)) := by
  rw [parse_toc, parse_toc]
  by_cases hb : off + 20 ≤ buf.length
  · rw [if_pos hb, if_pos hb]
    cases hraw : parseTocRaw buf (off + 20) (readLE buf (off + 16) 4) with
    | error e => simp [hraw, Except.map]
    | ok raws => simp [hraw, Except.map, List.map_map]
  · rw [if_neg hb, if_neg hb]; rfl

/-- **C3, amended**: the TOC walk has no cycle guard or iteration cap; it
terminates precisely when the `next_toc` chain reaches zero (within the
given step budget), visiting one TOC block per link — on a chain that
never reaches zero (in particular a cycle) it runs forever. -/
theorem getTocLoop_ok_iff_reachesZero (buf : List Nat) (doff : Nat) :
    ∀ fuel t acc c,
      (∃ r, getTocLoop buf doff fuel t acc c = .ok r) ↔
        reachesZero buf doff fuel t = true := by
  intro fuel
  induction fuel with
  | zero =>
    intro t acc c
    by_cases ht : t = 0
    · subst ht; simp [getTocLoop, reachesZero]
    · have htp : 0 < t := Nat.pos_of_ne_zero ht
      rw [getTocLoop, if_pos htp]
      rw [reachesZero, if_neg ht]
      simp
  | succ f ih =>
    intro t acc c
    by_cases ht : t = 0
    · subst ht; simp [getTocLoop, reachesZero]
    · have htp : 0 < t := Nat.pos_of_ne_zero ht
      rw [getTocLoop, if_pos htp]
      rw [reachesZero, if_neg ht]
      rw [parse_toc_index_shape buf (doff + t) doff c 0]
      cases hc : parse_toc buf (doff + t) doff 0 with
      | error e => simp [hc, Except.map]
      | ok p =>
        simp only [hc, Except.map]
        exact ih p.2 (acc ++ p.1.map (fun e => { e with index := c })) (c + 1)

/-- **C8**: `update_record` never silently overwrites: for a field
dictionary with distinct keys, an existing key keeps its first-written
value (new keys take the dictionary's value), and a key is reported in
the error log exactly when it collides with one already present. -/
theorem update_record_first_write_wins (record : Record)
    (fd : List (String × Val)) (k : String)
    (hnd : (fd.map Prod.fst).Nodup) :
    rget (update_record record fd).1 k =
      ((rget record k).orElse (fun _ => rget fd k)) ∧
    (k ∈ (update_record record fd).2 ↔
      (rget record k).isSome ∧ (rget fd k).isSome) := by
  induction fd generalizing record with
  | nil =>
    simp [update_record, rget, Option.orElse]
    cases rget record k <;> simp
  | cons p rest ih =>
    obtain ⟨k1, v1⟩ := p
    have hnd' : (rest.map Prod.fst).Nodup := (List.nodup_cons.mp hnd).2
    have hk1 : k1 ∉ rest.map Prod.fst := (List.nodup_cons.mp hnd).1
    by_cases hc : rcontains record k1
    · rw [update_record]
      simp only [hc, if_pos]
      obtain ⟨ihv, ihl⟩ := ih record hnd'
      by_cases hkk : k1 = k
      · subst hkk
        have hsome : (rget record k1).isSome := by
          simpa [rcontains] using hc
        obtain ⟨v0, hv0⟩ := Option.isSome_iff_exists.mp hsome
        constructor
        · rw [ihv, hv0]; simp [rget, Option.orElse]
        · simp [List.mem_cons, ihl, hv0, rget]
      · constructor
        · rw [ihv]; simp [rget, hkk]
        · simp only [List.mem_cons]
          rw [ihl]
          simp [rget, hkk, Ne.symm hkk]
    · rw [update_record]
      simp only [hc, Bool.false_eq_true, if_neg, not_false_iff]
      obtain ⟨ihv, ihl⟩ := ih (rset record k1 v1) hnd'
      have hnone : rget record k1 = none := by
        rcases h : rget record k1 with _ | v0
        · rfl
        · exact absurd (by simp [rcontains, h]) hc
      by_cases hkk : k1 = k
      · subst hkk
        have hrest : rget rest k1 = none :=
          rget_eq_none_of_not_mem_keys rest k1 hk1
        constructor
        · rw [ihv, rget_rset_self, hnone, hrest]
          simp [rget, Option.orElse]
        · rw [ihl]
          simp [rget_rset_self, hnone, hrest, rget]
      · constructor
        · rw [ihv, rget_rset_ne record k1 k v1 hkk]
          simp [rget, hkk, Ne.symm hkk]
        · rw [ihl]
          simp [rget_rset_ne record k1 k v1 hkk, rget, hkk, Ne.symm hkk]

/-- Witness for C8: a concrete collision — `target_inode` is already
present, the update keeps the first value `nat 7`, ignores the colliding
`nat 9`, stores the new key, and logs exactly the colliding key. -/
theorem update_record_first_write_wins_witness :
    rget (update_record [("target_inode", Val.nat 7)]
        [("target_inode", Val.nat 9), ("user_uid", Val.nat 1)]).1
        "target_inode" =
      ((rget [("target_inode", Val.nat 7)] "target_inode").orElse
        (fun _ => rget [("target_inode", Val.nat 9), ("user_uid", Val.nat 1)]
          "target_inode")) ∧
    ("target_inode" ∈ (update_record [("target_inode", Val.nat 7)]
        [("target_inode", Val.nat 9), ("user_uid", Val.nat 1)]).2 ↔
      (rget [("target_inode", Val.nat 7)] "target_inode").isSome ∧
      (rget [("target_inode", Val.nat 9), ("user_uid", Val.nat 1)]
        "target_inode").isSome) :=
  update_record_first_write_wins [("target_inode", Val.nat 7)]
    [("target_inode", Val.nat 9), ("user_uid", Val.nat 1)] "target_inode"
    (by simp)

end BookmarkParser

/-! ## Claims about alias.py -/

namespace AliasParser

/-- **C10**: `decode_hfs_unicode_str` ignores the TLV-declared field
length: its result depends only on the 16-bit character count read at
the field start, after which `2 * count` bytes are decoded as UTF-16-BE,
clamped only at the end of the blob.  The second conjunct decodes 4
payload bytes for a declared length of 2 (reading past the declared
extent); the third stops at the blob end although the count asks for 10
bytes; the last runs `decode_field` on a `target_filename` (0x0E) TLV
entry of declared length 2 and stores a string whose second character
comes from beyond the declared extent (which ends at offset 6). -/
theorem decode_hfs_unicode_str_ignores_declared_length :
    (∀ buf offset l₁ l₂, decode_hfs_unicode_str buf offset l₁ =
        decode_hfs_unicode_str buf offset l₂) ∧
    decode_hfs_unicode_str [0x00, 0x02, 0x00, 0x41, 0x00, 0x42] 0 2 =
      some (.str "AB") ∧
    decode_hfs_unicode_str [0x00, 0x05, 0x00, 0x41] 0 99 =
      some (.str "A") ∧
    decode_field [0x00, 0x0E, 0x00, 0x02, 0x00, 0x02, 0x00, 0x41, 0x00, 0x42]
        0 [] = .ok ([("target_filename", .str "AB")], 6) :=
  ⟨fun _ _ _ _ => rfl, rfl, rfl, rfl⟩

/-- **C6, counterexample**: with mount point `/mnt` and a path that
already begins with `/`, `join_path_mount` produces `/mnt//abc` — a
double slash at the join point, contradicting "no combination produces a
double slash" (and "exactly one `/` between them"). -/
theorem join_path_mount_double_slash_cex :
    rget (join_path_mount
        [("volume_mount_point", .str "/mnt"), ("path", .str "/abc")]) "path"
      = some (.str "/mnt//abc") ∧
    hasDoubleSlash ("/mnt//abc".data) = true :=
  ⟨rfl, rfl⟩

/-- A double-slash-free concatenation: no `//` may appear inside either
part nor straddle the junction. -/
theorem hasDoubleSlash_append (a b : List Char)
    (ha : hasDoubleSlash a = false) (hb : hasDoubleSlash b = false)
    (hj : ¬ (a.getLast? = some (Char.ofNat 0x2F) ∧
             b.head? = some (Char.ofNat 0x2F))) :
    hasDoubleSlash (a ++ b) = false := by
  induction a with
  | nil => simpa using hb
  | cons c a' ih =>
    cases a' with
    | nil =>
      cases b with
      | nil => simp [hasDoubleSlash]
      | cons d b' =>
        have hcd : ¬ (c = Char.ofNat 0x2F ∧ d = Char.ofNat 0x2F) := by
          intro ⟨h1, h2⟩
          exact hj ⟨by simp [h1], by simp [h2]⟩
        simp only [List.singleton_append, hasDoubleSlash]
        rw [Bool.or_eq_false_iff]
        constructor
        · by_cases h1 : c = Char.ofNat 0x2F
          · by_cases h2 : d = Char.ofNat 0x2F
            · exact absurd ⟨h1, h2⟩ hcd
            · simp [h2]
          · simp [h1]
        · exact hb
    | cons c2 a'' =>
      have ha' : hasDoubleSlash (c2 :: a'') = false := by
        rw [hasDoubleSlash, Bool.or_eq_false_iff] at ha
        exact ha.2
      have hcc : ¬ (c = Char.ofNat 0x2F ∧ c2 = Char.ofNat 0x2F) := by
        intro ⟨h1, h2⟩
        rw [hasDoubleSlash, Bool.or_eq_false_iff] at ha
        simp [h1, h2] at ha
      have hj' : ¬ ((c2 :: a'').getLast? = some (Char.ofNat 0x2F) ∧
          b.head? = some (Char.ofNat 0x2F)) := by
        intro ⟨h1, h2⟩
        exact hj ⟨by rw [List.getLast?_cons_cons]; exact h1, h2⟩
      have := ih ha' hj'
      rw [List.cons_append, List.cons_append, hasDoubleSlash,
        Bool.or_eq_false_iff]
      rw [List.cons_append] at this
      refine ⟨?_, this⟩
      by_cases h1 : c = Char.ofNat 0x2F
      · by_cases h2 : c2 = Char.ofNat 0x2F
        · exact absurd ⟨h1, h2⟩ hcc
        · simp [h2]
      · simp [h1]

/-- A list that ends in `/` and is double-slash-free cannot end in two
slashes. -/
theorem hasDoubleSlash_concat_slash (l : List Char)
    (h : l.getLast? = some (Char.ofNat 0x2F)) :
    hasDoubleSlash (l ++ [Char.ofNat 0x2F]) = true := by
  induction l with
  | nil => simp at h
  | cons c l' ih =>
    cases l' with
    | nil =>
      simp at h
      simp [hasDoubleSlash, h]
    | cons c2 l'' =>
      rw [List.getLast?_cons_cons] at h
      have := ih h
      rw [List.cons_append]
      simp only [hasDoubleSlash]
      rw [List.cons_append] at this
      simp [this]

/-- Dropping trailing slashes from a list that does not end in one is the
identity. -/
theorem dropTrailingSlashes_of_no_trailing (l : List Char)
    (h : l.getLast? ≠ some (Char.ofNat 0x2F)) :
    dropTrailingSlashes l = l := by
  unfold dropTrailingSlashes
  cases hl : l.reverse with
  | nil =>
    have : l = [] := by simpa using congrArg List.reverse hl
    simp [this]
  | cons c cs =>
    have hc : ¬ (c = Char.ofNat 0x2F) := by
      intro hc
      apply h
      have : l.reverse.head? = some c := by rw [hl]; rfl
      rwa [List.head?_reverse, hc] at this
    rw [List.dropWhile_cons, if_neg (by simpa using hc), ← hl,
      List.reverse_reverse]

/-- Dropping trailing slashes after appending one `/` to a list with no
trailing slash recovers the list. -/
theorem dropTrailingSlashes_concat_slash (l : List Char)
    (h : l.getLast? ≠ some (Char.ofNat 0x2F)) :
    dropTrailingSlashes (l ++ [Char.ofNat 0x2F]) = l := by
  unfold dropTrailingSlashes
  rw [List.reverse_append]
  show ((Char.ofNat 0x2F :: l.reverse).dropWhile _).reverse = l
  rw [List.dropWhile_cons, if_pos (by simp)]
  cases hl : l.reverse with
  | nil =>
    have : l = [] := by simpa using congrArg List.reverse hl
    simp [this]
  | cons c cs =>
    have hc : ¬ (c = Char.ofNat 0x2F) := by
      intro hc
      apply h
      have : l.reverse.head? = some c := by rw [hl]; rfl
      rwa [List.head?_reverse, hc] at this
    rw [List.dropWhile_cons, if_neg (by simpa using hc), ← hl,
      List.reverse_reverse]

/-- **C6, amended**: `join_path_mount` inserts a `/` only when the mount
point does not already end with one and the path is non-empty.  When the
path does not itself begin with `/` (and neither part contains `//`), the
joined path is exactly the mount point (trailing slash normalized) and
the path with a single `/` between them, and contains no double slash;
the spec's example `/` + `Users/alice/Documents` =
`/Users/alice/Documents` is an instance.  A path beginning with `/`
produces a double slash (see the counterexample). -/
theorem join_path_mount_single_slash (record : Record) (mount path : String)
    (hm : rget record "volume_mount_point" = some (.str mount))
    (hp : rget record "path" = some (.str path))
    (hm0 : mount ≠ "") (hp0 : path ≠ "")
    (hmds : hasDoubleSlash mount.data = false)
    (hpds : hasDoubleSlash path.data = false)
    (hps : path.data.head? ≠ some (Char.ofNat 0x2F)) :
    ∃ joined : String,
      rget (AliasParser.join_path_mount record) "path" = some (.str joined) ∧
      joined.data = dropTrailingSlashes mount.data ++
        Char.ofNat 0x2F :: path.data ∧
      hasDoubleSlash joined.data = false := by
  unfold AliasParser.join_path_mount
  rw [hm]
  dsimp only
  rw [if_pos hm0, hp]
  dsimp only
  by_cases hew : AliasParser.endsWithSlash mount
  · have hcond : ¬ (¬ AliasParser.endsWithSlash mount ∧ path ≠ "") := by
      simp [hew]
    rw [if_neg hcond]
    refine ⟨mount ++ path, rget_rset_self record "path" _, ?_, ?_⟩
    · have hlast : mount.data.getLast? = some (Char.ofNat 0x2F) := by
        simpa [AliasParser.endsWithSlash] using hew
      obtain ⟨init, hinit⟩ : ∃ init,
          mount.data = init ++ [Char.ofNat 0x2F] :=
        ⟨mount.data.dropLast, (List.dropLast_append_getLast? _ hlast).symm⟩
      have hinitLast : init.getLast? ≠ some (Char.ofNat 0x2F) := by
        intro hbad
        have := hasDoubleSlash_concat_slash init hbad
        rw [← hinit] at this
        rw [hmds] at this
        exact Bool.false_ne_true this
      rw [String.data_append, hinit,
        dropTrailingSlashes_concat_slash init hinitLast,
        List.append_assoc]
      rfl
    · rw [String.data_append]
      refine hasDoubleSlash_append _ _ hmds hpds ?_
      intro ⟨_, h2⟩
      exact hps h2
  · have hlast : mount.data.getLast? ≠ some (Char.ofNat 0x2F) := by
      simpa [AliasParser.endsWithSlash] using hew
    rw [if_pos ⟨by simpa using hew, hp0⟩]
    refine ⟨mount ++ "/" ++ path, rget_rset_self record "path" _, ?_, ?_⟩
    · rw [String.data_append, String.data_append,
        dropTrailingSlashes_of_no_trailing mount.data hlast,
        List.append_assoc]
      rfl
    · rw [String.data_append, String.data_append]
      have hms : hasDoubleSlash (mount.data ++ "/".data) = false := by
        refine hasDoubleSlash_append _ _ hmds rfl ?_
        intro ⟨h1, _⟩
        exact hlast h1
      refine hasDoubleSlash_append _ _ hms hpds ?_
      intro ⟨_, h2⟩
      exact hps h2

/-- Witness for C6 (amended): the spec's own example — mount point `/`
and path `Users/alice/Documents`; `dropTrailingSlashes "/".data = []`, so
the joined path is `/Users/alice/Documents`. -/
theorem join_path_mount_single_slash_witness :
    ∃ joined : String,
      rget (AliasParser.join_path_mount
          [("volume_mount_point", .str "/"),
           ("path", .str "Users/alice/Documents")]) "path" =
        some (.str joined) ∧
      joined.data = dropTrailingSlashes "/".data ++
        Char.ofNat 0x2F :: "Users/alice/Documents".data ∧
      hasDoubleSlash joined.data = false :=
  join_path_mount_single_slash
    [("volume_mount_point", .str "/"), ("path", .str "Users/alice/Documents")]
    "/" "Users/alice/Documents" rfl rfl (by decide) (by decide) rfl rfl
    (by decide)

set_option maxRecDepth 40000 in
/-- **C5, counterexample**: parsing a v2 alias whose `creation_date`
scalar is `0x41424344` (and which has no named date fields) yields a
record whose `creation_date` is the raw unsigned integer `0x41424344` —
not a UTC timestamp.  `decode_dates` converts only raw-bytes values (the
v3 8-byte compounds); the v2 `u32` scalars pass through unconverted. -/
theorem v2_scalar_date_not_converted_cex :
    rget (firstRecord (parse 0 9 aliasRawDateBlob)) "creation_date"
      = some (.nat 0x41424344) := by
  simp only [parse, parse_version]
  rfl

/-- **C5, amended**: the v2 scalar HFS-seconds dates appear in the output
as raw integers: `decode_dates` leaves integer-valued `creation_date` /
`volume_creation_date` untouched (first conjunct).  When named field 0x11
supplies the 8-byte compound, its decoded UTC timestamp is stored under
`creation_date`, replacing the scalar (second conjunct). -/
theorem v2_scalar_dates_unconverted_named_field_wins :
    (∀ (record : Record) (n m : Nat),
        rget record "creation_date" = some (.nat n) →
        rget record "volume_creation_date" = some (.nat m) →
        decode_dates record = .ok record) ∧
    (∀ (buf : List Nat) (offset : Nat) (record : Record) (v : Val),
        offset + 4 ≤ buf.length →
        readBE buf offset 2 = 0x11 →
        0 < readBE buf (offset + 2) 2 →
        decode_hfs_epoch_date buf (offset + 4) (readBE buf (offset + 2) 2) =
          some v →
        decode_field buf offset record =
          .ok (rset record "creation_date" v,
            offset + 4 + readBE buf (offset + 2) 2 +
              readBE buf (offset + 2) 2 % 2) ∧
        rget (rset record "creation_date" v) "creation_date" = some v) := by
  constructor
  · intro record n m hc hv
    simp only [decode_dates, decodeDateField, hc, hv, Bind.bind, Except.bind]
  · intro buf offset record v h1 h2 h3 h5
    have hne : readBE buf offset 2 ≠ 0xFFFF := by rw [h2]; decide
    refine ⟨?_, rget_rset_self record "creation_date" v⟩
    unfold decode_field
    rw [if_pos h1]
    dsimp only
    rw [if_pos ⟨hne, h3⟩, h2]
    simp only [named_fields]
    rw [h5]

/-- Witness for C5 (amended): a record with both scalar dates passes
`decode_dates` unchanged; and `decode_field` on a concrete 0x11 TLV entry
(compound timestamp one second past the HFS epoch) overwrites the
scalar `creation_date` with the decoded datetime. -/
theorem v2_scalar_dates_unconverted_named_field_wins_witness :
    decode_dates [("creation_date", Val.nat 5), ("volume_creation_date", Val.nat 7)]
      = .ok [("creation_date", Val.nat 5), ("volume_creation_date", Val.nat 7)] ∧
    (decode_field hfsDateFieldBuf 0 [("creation_date", Val.nat 5)] =
      .ok (rset [("creation_date", Val.nat 5)] "creation_date"
          (.date (-2082844799000000)), 0 + 4 + 8 + 8 % 2) ∧
     rget (rset [("creation_date", Val.nat 5)] "creation_date"
        (.date (-2082844799000000))) "creation_date" =
       some (.date (-2082844799000000))) :=
  ⟨v2_scalar_dates_unconverted_named_field_wins.1
     [("creation_date", Val.nat 5), ("volume_creation_date", Val.nat 7)] 5 7
     rfl rfl,
   by
     have h := v2_scalar_dates_unconverted_named_field_wins.2 hfsDateFieldBuf 0
       [("creation_date", Val.nat 5)] (.date (-2082844799000000))
       (by decide) rfl (by decide) (by rfl)
     simpa using h⟩

set_option maxRecDepth 40000 in
/-- **C4, counterexample**: parsing the v2 alias blob whose TLV list is a
`0xFFFF` sentinel entry followed by a `volume_mount_point` (0x13) field
shows that bytes after the sentinel **are** decoded as named fields: the
output record contains `volume_mount_point = "/"`, which lies entirely
after the sentinel entry.  The loop does not stop at the sentinel. -/
theorem named_field_after_sentinel_decoded_cex :
    rget (firstRecord (parse 5 9 aliasSentinelBlob)) "volume_mount_point"
      = some (.str "/") := by
  simp only [parse, parse_version]
  rfl

/-- **C4, amended**: a sentinel entry (`field_id == 0xFFFF`) is itself
not decoded — `decode_field` leaves the record unchanged and advances
exactly 4 bytes — but the TLV loop does **not** stop there: it continues
with the bytes after the sentinel (until end of buffer or the
50-iteration cap). -/
theorem sentinel_skips_entry_but_loop_continues (buf : List Nat)
    (offset iters : Nat) (record : Record)
    (hb : offset + 4 ≤ buf.length)
    (hs : readBE buf offset 2 = 0xFFFF) :
    decode_field buf offset record = .ok (record, offset + 4) ∧
    (offset < buf.length →
      fieldLoop buf (iters + 1) offset record =
        fieldLoop buf iters (offset + 4) record) := by
  have h1 : decode_field buf offset record = .ok (record, offset + 4) := by
    unfold decode_field
    rw [if_pos hb]
    simp [hs]
  refine ⟨h1, fun hlt => ?_⟩
  simp only [fieldLoop]
  rw [if_pos hlt, h1]

/-- Witness for C4 (amended): concrete 5-byte buffer starting with the
sentinel — the entry decodes nothing, and the loop at budget 3 continues
past it with budget 2. -/
theorem sentinel_skips_entry_but_loop_continues_witness :
    decode_field [0xFF, 0xFF, 0, 0, 0x99] 0 [] = .ok ([], 0 + 4) ∧
    fieldLoop [0xFF, 0xFF, 0, 0, 0x99] 3 0 [] =
      fieldLoop [0xFF, 0xFF, 0, 0, 0x99] 2 (0 + 4) [] := by
  have h := sentinel_skips_entry_but_loop_continues
    [0xFF, 0xFF, 0, 0, 0x99] 0 2 [] (by decide) rfl
  exact ⟨h.1, h.2 (by decide)⟩

/-! ### C7: sentinel-to-null is exact, machinery -/

/-- Every name in the `named_fields` table. -/
theorem named_fields_mem (i : Nat) (p : String × Option Decoder)
    (h : named_fields i = some p) :
    p.1 ∈ ["folder_name", "cnid_path", "hfs_path", "appleshare_zone",
      "appleshare_server_name", "appleshare_username", "driver_name",
      "network_mount_info", "dialup_info", "target_filename", "volume_name",
      "volume_creation_date", "creation_date", "path", "volume_mount_point",
      "alias_data", "user_home_prefix_length"] := by
  unfold named_fields at h
  split at h <;> try (cases h; decide)
  all_goals simp_all

/-- `decode_field` writes only keys named in the `named_fields` table. -/
theorem decode_field_preserves (buf : List Nat) (offset : Nat)
    (record record' : Record) (off' : Nat) (k : String)
    (hk : k ∉ ["folder_name", "cnid_path", "hfs_path", "appleshare_zone",
      "appleshare_server_name", "appleshare_username", "driver_name",
      "network_mount_info", "dialup_info", "target_filename", "volume_name",
      "volume_creation_date", "creation_date", "path", "volume_mount_point",
      "alias_data", "user_home_prefix_length"])
    (h : decode_field buf offset record = .ok (record', off')) :
    rget record' k = rget record k := by
  unfold decode_field at h
  by_cases hb : offset + 4 ≤ buf.length
  · rw [if_pos hb] at h
    dsimp only at h
    by_cases hcond : readBE buf offset 2 ≠ 0xFFFF ∧ readBE buf (offset + 2) 2 > 0
    · rw [if_pos hcond] at h
      cases hm : named_fields (readBE buf offset 2) with
      | none =>
        rw [hm] at h
        simp only [Except.ok.injEq, Prod.mk.injEq] at h
        rw [← h.1]
      | some p =>
        obtain ⟨name, odec⟩ := p
        have hname : name ≠ k := by
          intro hh
          exact hk (hh ▸ named_fields_mem _ _ hm)
        rw [hm] at h
        cases odec with
        | none =>
          simp only [Except.ok.injEq, Prod.mk.injEq] at h
          rw [← h.1]
        | some dec =>
          dsimp only at h
          cases hd : dec buf (offset + 4) (readBE buf (offset + 2) 2) with
          | none =>
            rw [hd] at h
            simp only [Except.ok.injEq, Prod.mk.injEq] at h
            rw [← h.1]
          | some v =>
            rw [hd] at h
            simp only [Except.ok.injEq, Prod.mk.injEq] at h
            rw [← h.1]
            exact rget_rset_ne record name k v hname
    · rw [if_neg hcond] at h
      simp only [Except.ok.injEq, Prod.mk.injEq] at h
      rw [← h.1]
  · rw [if_neg hb] at h
    exact absurd h (by simp)

/-- The TLV loop writes only keys named in the `named_fields` table. -/
theorem fieldLoop_preserves (buf : List Nat) (k : String)
    (hk : k ∉ ["folder_name", "cnid_path", "hfs_path", "appleshare_zone",
      "appleshare_server_name", "appleshare_username", "driver_name",
      "network_mount_info", "dialup_info", "target_filename", "volume_name",
      "volume_creation_date", "creation_date", "path", "volume_mount_point",
      "alias_data", "user_home_prefix_length"]) :
    ∀ (iters cur : Nat) (record record' : Record),
      fieldLoop buf iters cur record = .ok record' →
      rget record' k = rget record k := by
  intro iters
  induction iters with
  | zero =>
    intro cur record record' h
    injection h with h1
    rw [← h1]
  | succ n ih =>
    intro cur record record' h
    rw [fieldLoop] at h
    by_cases hc : cur < buf.length
    · rw [if_pos hc] at h
      cases hd : decode_field buf cur record with
      | error e => rw [hd] at h; exact absurd h (by simp)
      | ok pr =>
        rw [hd] at h
        exact (ih pr.2 pr.1 record' h).trans
          (decode_field_preserves buf cur record pr.1 pr.2 k hk hd)
    · rw [if_neg hc] at h
      injection h with h1
      rw [← h1]

theorem decodeAsciiField_preserves (r : Record) (f k : String) (h : f ≠ k) :
    rget (decodeAsciiField r f) k = rget r k := by
  unfold decodeAsciiField
  split
  · split
    · exact rget_rset_ne r f k _ h
    · exact rget_rset_ne r f k _ h
  · rfl

theorem decode_ascii_fields_preserves (r : Record) (k : String)
    (h1 : k ≠ "application") (h2 : k ≠ "target_type") :
    rget (decode_ascii_fields r) k = rget r k := by
  unfold decode_ascii_fields
  rw [decodeAsciiField_preserves _ _ _ (Ne.symm h2),
    decodeAsciiField_preserves _ _ _ (Ne.symm h1)]

theorem decodeDateField_preserves_ok (r r' : Record) (f k : String)
    (hne : f ≠ k) (h : decodeDateField r f = .ok r') :
    rget r' k = rget r k := by
  unfold decodeDateField at h
  split at h
  · split at h
    · injection h with h1
      rw [← h1, rget_append_single_ne _ _ _ _ (Ne.symm hne),
        rget_rdel_ne _ _ _ hne]
    · exact absurd h (by simp)
  · injection h with h1
    rw [← h1]

theorem decode_dates_preserves_ok (r r' : Record) (k : String)
    (h1 : k ≠ "creation_date") (h2 : k ≠ "volume_creation_date")
    (h : decode_dates r = .ok r') : rget r' k = rget r k := by
  unfold decode_dates at h
  cases hd1 : decodeDateField r "creation_date" with
  | error e => rw [hd1] at h; exact absurd h (by simp [Bind.bind, Except.bind])
  | ok rmid =>
    rw [hd1] at h
    simp only [Bind.bind, Except.bind] at h
    exact (decodeDateField_preserves_ok rmid r' _ k (Ne.symm h2) h).trans
      (decodeDateField_preserves_ok r rmid _ k (Ne.symm h1) hd1)

theorem filterCnid_preserves (r : Record) (f k : String) (h : f ≠ k) :
    rget (filterCnid r f) k = rget r k := by
  unfold filterCnid
  split
  · exact rget_rset_ne r f k _ h
  · exact rget_rset_ne r f k _ h
  · rfl

theorem filterCnid_self (r : Record) (f : String) (n : Nat)
    (h : rget r f = some (.nat n)) :
    rget (filterCnid r f) f =
      some (if n = 0xFFFFFFFF then .null else .nat n) := by
  unfold filterCnid
  rw [h]
  exact rget_rset_self r f _

theorem filterLevel_preserves (r : Record) (f k : String) (h : f ≠ k) :
    rget (filterLevel r f) k = rget r k := by
  unfold filterLevel
  split
  · split
    · exact rget_rset_ne r f k _ h
    · rfl
  · rfl

theorem filterLevel_self (r : Record) (f : String) (n : Nat)
    (h : rget r f = some (.nat n)) :
    rget (filterLevel r f) f = some (if n = 0xFFFF then .null else .nat n) := by
  unfold filterLevel
  rw [h]
  show rget (if n = 0xFFFF then rset r f .null else r) f = _
  by_cases hn : n = 0xFFFF
  · rw [if_pos hn, if_pos hn]
    exact rget_rset_self r f _
  · rw [if_neg hn, if_neg hn]
    exact h

theorem join_path_mount_preserves (r : Record) (k : String)
    (h : k ≠ "path") : rget (join_path_mount r) k = rget r k := by
  unfold join_path_mount
  split
  · split
    · exact rget_rset_ne r "path" k _ (Ne.symm h)
    · rfl
  · rfl

theorem stepIsDirectory_preserves (r : Record) (k : String)
    (h : k ≠ "is_directory") : rget (stepIsDirectory r) k = rget r k := by
  unfold stepIsDirectory
  split
  · exact rget_rset_ne r "is_directory" k _ (Ne.symm h)
  · rfl

theorem stepSignatureMerge_preserves (r : Record) (k : String)
    (h1 : k ≠ "signature") (h2 : k ≠ "filesystem_id")
    (h3 : k ≠ "signature_fsid") :
    rget (stepSignatureMerge r) k = rget r k := by
  unfold stepSignatureMerge
  split
  · show rget (rset (rdel (rdel r "signature") "filesystem_id") "signature_fsid" _) k = _
    rw [rget_rset_ne _ _ _ _ (Ne.symm h3), rget_rdel_ne _ _ _ (Ne.symm h2),
      rget_rdel_ne _ _ _ (Ne.symm h1)]
  · show rget (rset (rdel (rdel r "signature") "filesystem_id") "signature_fsid" _) k = _
    rw [rget_rset_ne _ _ _ _ (Ne.symm h3), rget_rdel_ne _ _ _ (Ne.symm h2),
      rget_rdel_ne _ _ _ (Ne.symm h1)]
  · rfl

theorem stepFsDescription_preserves (r : Record) (k : String)
    (h : k ≠ "filesystem_description") :
    rget (stepFsDescription r) k = rget r k := by
  unfold stepFsDescription
  exact rget_rset_ne r _ k _ (Ne.symm h)

theorem stepDiskType_preserves (r : Record) (k : String)
    (h : k ≠ "disk_type_description") :
    rget (stepDiskType r) k = rget r k := by
  unfold stepDiskType
  split
  · exact rget_rset_ne r _ k _ (Ne.symm h)
  · exact rget_rset_ne r _ k _ (Ne.symm h)
  · rfl

theorem stepSignatureDecode_preserves (r : Record) (k : String)
    (h : k ≠ "signature_fsid") :
    rget (stepSignatureDecode r) k = rget r k := by
  unfold stepSignatureDecode
  exact rget_rset_ne r _ k _ (Ne.symm h)

theorem stepVolumeFlags_preserves (r : Record) (k : String)
    (h : k ≠ "volume_flags") :
    rget (stepVolumeFlags r) k = rget r k := by
  unfold stepVolumeFlags
  rw [rget_append_single_ne _ _ _ _ h, rget_rdel_ne _ _ _ (Ne.symm h)]

theorem stepBookmarkIndex_preserves (idx : Nat) (r : Record) (k : String)
    (h : k ≠ "bookmark_index") :
    rget (stepBookmarkIndex idx r) k = rget r k := by
  unfold stepBookmarkIndex
  exact rget_rset_ne r _ k _ (Ne.symm h)

/-- Through the whole post-processing pipeline, a CNID field holding the
integer `n` comes out as `null` exactly for the `0xFFFFFFFF` sentinel and
as the unchanged integer otherwise. -/
theorem postProcess_cnid (idx : Nat) (r r' : Record) (k : String) (n : Nat)
    (hk : k = "parent_inode" ∨ k = "target_inode")
    (h : postProcess idx r = .ok r')
    (hn : rget r k = some (.nat n)) :
    rget r' k = some (if n = 0xFFFFFFFF then .null else .nat n) := by
  unfold postProcess at h
  cases hdd : decode_dates (decode_ascii_fields r) with
  | error e => rw [hdd] at h; exact absurd h (by simp)
  | ok r2 =>
    rw [hdd] at h
    simp only [Except.ok.injEq] at h
    rw [← h]
    have hr2 : rget r2 k = some (.nat n) := by
      rcases hk with rfl | rfl <;>
        rw [decode_dates_preserves_ok _ _ _ (by decide) (by decide) hdd,
          decode_ascii_fields_preserves _ _ (by decide) (by decide)] <;>
        exact hn
    rcases hk with rfl | rfl
    · rw [stepBookmarkIndex_preserves _ _ _ (by decide),
        stepVolumeFlags_preserves _ _ (by decide),
        stepSignatureDecode_preserves _ _ (by decide),
        stepDiskType_preserves _ _ (by decide),
        stepFsDescription_preserves _ _ (by decide),
        stepSignatureMerge_preserves _ _ (by decide) (by decide) (by decide),
        stepIsDirectory_preserves _ _ (by decide),
        join_path_mount_preserves _ _ (by decide)]
      unfold filter_levels
      rw [filterLevel_preserves _ _ _ (by decide),
        filterLevel_preserves _ _ _ (by decide)]
      unfold filter_cnids
      rw [filterCnid_preserves _ _ _ (by decide)]
      exact filterCnid_self r2 "parent_inode" n hr2
    · rw [stepBookmarkIndex_preserves _ _ _ (by decide),
        stepVolumeFlags_preserves _ _ (by decide),
        stepSignatureDecode_preserves _ _ (by decide),
        stepDiskType_preserves _ _ (by decide),
        stepFsDescription_preserves _ _ (by decide),
        stepSignatureMerge_preserves _ _ (by decide) (by decide) (by decide),
        stepIsDirectory_preserves _ _ (by decide),
        join_path_mount_preserves _ _ (by decide)]
      unfold filter_levels
      rw [filterLevel_preserves _ _ _ (by decide),
        filterLevel_preserves _ _ _ (by decide)]
      unfold filter_cnids
      have hmid : rget (filterCnid r2 "parent_inode") "target_inode" =
          some (.nat n) := by
        rw [filterCnid_preserves _ _ _ (by decide)]
        exact hr2
      exact filterCnid_self (filterCnid r2 "parent_inode") "target_inode" n hmid

/-- Through the whole post-processing pipeline, a depth field holding the
integer `n` comes out as `null` exactly for the `0xFFFF` sentinel and as
the unchanged integer otherwise. -/
theorem postProcess_level (idx : Nat) (r r' : Record) (k : String) (n : Nat)
    (hk : k = "alias_to_root_depth" ∨ k = "root_to_target_depth")
    (h : postProcess idx r = .ok r')
    (hn : rget r k = some (.nat n)) :
    rget r' k = some (if n = 0xFFFF then .null else .nat n) := by
  unfold postProcess at h
  cases hdd : decode_dates (decode_ascii_fields r) with
  | error e => rw [hdd] at h; exact absurd h (by simp)
  | ok r2 =>
    rw [hdd] at h
    simp only [Except.ok.injEq] at h
    rw [← h]
    have hr2 : rget r2 k = some (.nat n) := by
      rcases hk with rfl | rfl <;>
        rw [decode_dates_preserves_ok _ _ _ (by decide) (by decide) hdd,
          decode_ascii_fields_preserves _ _ (by decide) (by decide)] <;>
        exact hn
    have hfc : rget (filter_cnids r2) k = some (.nat n) := by
      unfold filter_cnids
      rcases hk with rfl | rfl <;>
        rw [filterCnid_preserves _ _ _ (by decide),
          filterCnid_preserves _ _ _ (by decide)] <;>
        exact hr2
    rcases hk with rfl | rfl
    · rw [stepBookmarkIndex_preserves _ _ _ (by decide),
        stepVolumeFlags_preserves _ _ (by decide),
        stepSignatureDecode_preserves _ _ (by decide),
        stepDiskType_preserves _ _ (by decide),
        stepFsDescription_preserves _ _ (by decide),
        stepSignatureMerge_preserves _ _ (by decide) (by decide) (by decide),
        stepIsDirectory_preserves _ _ (by decide),
        join_path_mount_preserves _ _ (by decide)]
      unfold filter_levels
      rw [filterLevel_preserves _ _ _ (by decide)]
      exact filterLevel_self (filter_cnids r2) "alias_to_root_depth" n hfc
    · rw [stepBookmarkIndex_preserves _ _ _ (by decide),
        stepVolumeFlags_preserves _ _ (by decide),
        stepSignatureDecode_preserves _ _ (by decide),
        stepDiskType_preserves _ _ (by decide),
        stepFsDescription_preserves _ _ (by decide),
        stepSignatureMerge_preserves _ _ (by decide) (by decide) (by decide),
        stepIsDirectory_preserves _ _ (by decide),
        join_path_mount_preserves _ _ (by decide)]
      unfold filter_levels
      have hmid : rget (filterLevel (filter_cnids r2) "alias_to_root_depth")
          "root_to_target_depth" = some (.nat n) := by
        rw [filterLevel_preserves _ _ _ (by decide)]
        exact hfc
      exact filterLevel_self _ "root_to_target_depth" n hmid

/-- **C7**: in every record emitted by `parse` for a version-2 alias
blob, `parent_inode` and `target_inode` are null iff the raw 32-bit value
in the fixed body is `0xFFFFFFFF`, and `alias_to_root_depth` /
`root_to_target_depth` are null iff the raw 16-bit value is `0xFFFF`.
Stated for the head record of an arbitrary v2 blob; every emitted record
— including those recursively decoded from embedded `alias_data` — is the
head record of `parse` on its own blob, so the statement covers them all
(v3 records do not carry the depth fields, and their CNID fields go
through the same `filter_cnids`). -/
theorem parse_v2_sentinel_null_iff (idx fuel : Nat) (buf : List Nat)
    (rec : Record) (recs : List Record)
    (hv : readBE buf 6 2 = 2)
    (hp : parse idx fuel buf = .ok (rec :: recs)) :
    (rget rec "parent_inode" = some .null ↔ readBE buf 46 4 = 0xFFFFFFFF) ∧
    (rget rec "target_inode" = some .null ↔ readBE buf 114 4 = 0xFFFFFFFF) ∧
    (rget rec "alias_to_root_depth" = some .null ↔ readBE buf 130 2 = 0xFFFF) ∧
    (rget rec "root_to_target_depth" = some .null ↔ readBE buf 132 2 = 0xFFFF) := by
  cases fuel with
  | zero => rw [parse] at hp; exact absurd hp (by simp)
  | succ f =>
    rw [parse] at hp
    by_cases hlen : buf.length < 8
    · rw [if_pos hlen] at hp; exact absurd hp (by simp)
    · rw [if_neg hlen] at hp
      dsimp only at hp
      rw [hv, if_pos rfl] at hp
      rw [parse_version] at hp
      cases hpd : parse_as_dict .v2 buf 8 with
      | none => rw [hpd] at hp; exact absurd hp (by simp)
      | some record0 =>
        rw [hpd] at hp
        dsimp only at hp
        cases hfl : fieldLoop buf 50 (8 + structSize AliasVersion.v2) record0 with
        | error e => rw [hfl] at hp; exact absurd hp (by simp)
        | ok r1 =>
          rw [hfl] at hp
          dsimp only at hp
          cases hpp : postProcess idx r1 with
          | error e => rw [hpp] at hp; exact absurd hp (by simp)
          | ok r2 =>
            rw [hpp] at hp
            dsimp only at hp
            have hrec : rec = rdel r2 "alias_data" := by
              split at hp
              · simp only [Except.ok.injEq, List.cons.injEq] at hp
                exact hp.1.symm
              · exact absurd hp (by simp)
            have hlit := hpd
            unfold parse_as_dict at hlit
            by_cases hbb : 8 + structSize .v2 ≤ buf.length
            · rw [if_pos hbb] at hlit
              simp only [Option.some.injEq] at hlit
              have g0p : rget record0 "parent_inode" =
                  some (.nat (readBE buf 46 4)) := by rw [← hlit]; rfl
              have g0t : rget record0 "target_inode" =
                  some (.nat (readBE buf 114 4)) := by rw [← hlit]; rfl
              have g0a : rget record0 "alias_to_root_depth" =
                  some (.nat (readBE buf 130 2)) := by rw [← hlit]; rfl
              have g0r : rget record0 "root_to_target_depth" =
                  some (.nat (readBE buf 132 2)) := by rw [← hlit]; rfl
              have g1p := fieldLoop_preserves buf "parent_inode" (by decide)
                50 _ record0 r1 hfl
              have g1t := fieldLoop_preserves buf "target_inode" (by decide)
                50 _ record0 r1 hfl
              have g1a := fieldLoop_preserves buf "alias_to_root_depth"
                (by decide) 50 _ record0 r1 hfl
              have g1r := fieldLoop_preserves buf "root_to_target_depth"
                (by decide) 50 _ record0 r1 hfl
              have g2p := postProcess_cnid idx r1 r2 "parent_inode" _
                (Or.inl rfl) hpp (g1p.trans g0p)
              have g2t := postProcess_cnid idx r1 r2 "target_inode" _
                (Or.inr rfl) hpp (g1t.trans g0t)
              have g2a := postProcess_level idx r1 r2 "alias_to_root_depth" _
                (Or.inl rfl) hpp (g1a.trans g0a)
              have g2r := postProcess_level idx r1 r2 "root_to_target_depth" _
                (Or.inr rfl) hpp (g1r.trans g0r)
              have g3p : rget rec "parent_inode" =
                  some (if readBE buf 46 4 = 0xFFFFFFFF then .null
                    else .nat (readBE buf 46 4)) := by
                rw [hrec, rget_rdel_ne _ _ _ (by decide)]; exact g2p
              have g3t : rget rec "target_inode" =
                  some (if readBE buf 114 4 = 0xFFFFFFFF then .null
                    else .nat (readBE buf 114 4)) := by
                rw [hrec, rget_rdel_ne _ _ _ (by decide)]; exact g2t
              have g3a : rget rec "alias_to_root_depth" =
                  some (if readBE buf 130 2 = 0xFFFF then .null
                    else .nat (readBE buf 130 2)) := by
                rw [hrec, rget_rdel_ne _ _ _ (by decide)]; exact g2a
              have g3r : rget rec "root_to_target_depth" =
                  some (if readBE buf 132 2 = 0xFFFF then .null
                    else .nat (readBE buf 132 2)) := by
                rw [hrec, rget_rdel_ne _ _ _ (by decide)]; exact g2r
              refine ⟨?_, ?_, ?_, ?_⟩
              · rw [g3p]
                by_cases hS : readBE buf 46 4 = 0xFFFFFFFF <;> simp [hS]
              · rw [g3t]
                by_cases hS : readBE buf 114 4 = 0xFFFFFFFF <;> simp [hS]
              · rw [g3a]
                by_cases hS : readBE buf 130 2 = 0xFFFF <;> simp [hS]
              · rw [g3r]
                by_cases hS : readBE buf 132 2 = 0xFFFF <;> simp [hS]
            · rw [if_neg hbb] at hlit
              exact absurd hlit (by simp)

set_option maxRecDepth 40000 in
/-- Witness for C7: a concrete 150-byte v2 blob with `parent_inode =
0xFFFFFFFF` (null in the output), `target_inode = 5` (kept),
`alias_to_root_depth = 0xFFFF` (null) and `root_to_target_depth = 3`
(kept). -/
theorem parse_v2_sentinel_null_iff_witness :
    (rget (firstRecord (parse 0 1 aliasSentinelFieldsBlob)) "parent_inode"
        = some Val.null ↔ readBE aliasSentinelFieldsBlob 46 4 = 0xFFFFFFFF) ∧
    (rget (firstRecord (parse 0 1 aliasSentinelFieldsBlob)) "target_inode"
        = some Val.null ↔ readBE aliasSentinelFieldsBlob 114 4 = 0xFFFFFFFF) ∧
    (rget (firstRecord (parse 0 1 aliasSentinelFieldsBlob)) "alias_to_root_depth"
        = some Val.null ↔ readBE aliasSentinelFieldsBlob 130 2 = 0xFFFF) ∧
    (rget (firstRecord (parse 0 1 aliasSentinelFieldsBlob)) "root_to_target_depth"
        = some Val.null ↔ readBE aliasSentinelFieldsBlob 132 2 = 0xFFFF) := by
  have hp : parse 0 1 aliasSentinelFieldsBlob =
      .ok (firstRecord (parse 0 1 aliasSentinelFieldsBlob) :: []) := by
    simp only [parse, parse_version]
    rfl
  exact parse_v2_sentinel_null_iff 0 1 aliasSentinelFieldsBlob _ [] rfl hp

end AliasParser

end Plistutils






